import Mathlib

/-!
# Verification development for `src/App.jsx`

Shallow embedding of the animated 3D scene (`AnimatedLogo`, `FloatingShapes`,
`FloatingShape`, `CodeParticles`) and of the animation set-up of `App`.

Numbers are exact rationals: every JavaScript number literal is read as the
rational it denotes (`0.1` is `1/10`), and arithmetic is exact.  `Math.sin`
and `Math.cos` belong to the host, so they are parameters of the embedding.
`Math.random` is a stream of draws together with a counter of the draws
already consumed.
-/

namespace App

/-! ## Host objects -/

/-- The functions of the host `Math` object that the frame callbacks call. -/
structure MathObj where
  sin : ℚ → ℚ
  cos : ℚ → ℚ

/-- A `THREE.Euler`, the `rotation` field of an object. -/
structure Euler where
  x : ℚ
  y : ℚ
  z : ℚ
deriving DecidableEq, Repr

/-- A `THREE.Vector3`, the `position` field of an object. -/
structure Vector3 where
  x : ℚ
  y : ℚ
  z : ℚ
deriving DecidableEq, Repr

/-- The fields of a mounted `mesh` that the frame callbacks read or write. -/
structure Mesh where
  rotation : Euler
  position : Vector3
deriving DecidableEq, Repr

/-! ## `AnimatedLogo` (lines 41-74) -/

/-- State of one `AnimatedLogo` instance: `meshRef.current` (absent until the
mesh is mounted) and the `hovered` state variable. -/
structure AnimatedLogo where
  meshRef : Option Mesh
  hovered : Bool
deriving DecidableEq, Repr

namespace AnimatedLogo

/-- The `useFrame` callback of `AnimatedLogo` (lines 45-52); `t` is the value
returned by `state.clock.getElapsedTime()`. -/
def useFrame (M : MathObj) (t : ℚ) (s : AnimatedLogo) : AnimatedLogo :=
  match s.meshRef with
  | some m =>
      let m := { m with rotation := { m.rotation with x := M.cos (t / 2) / 2 } }
      let m := { m with rotation := { m.rotation with y := M.sin (t / 3) / 2 } }
      let m := { m with position := { m.position with y := M.sin t * (1 / 10) } }
      { s with meshRef := some m }
  | none => s

/-- Handler `onPointerOver` (line 58): `setHovered(true)`. -/
def onPointerOver (s : AnimatedLogo) : AnimatedLogo := { s with hovered := true }

/-- Handler `onPointerOut` (line 59): `setHovered(false)`. -/
def onPointerOut (s : AnimatedLogo) : AnimatedLogo := { s with hovered := false }

/-- The `scale` prop of the mesh (line 60): `hovered ? 1.2 : 1`. -/
def scale (s : AnimatedLogo) : ℚ := if s.hovered then 6 / 5 else 1

/-- The `color` prop of the material (line 64). -/
def color (s : AnimatedLogo) : String := if s.hovered then "#00ffff" else "#a855f7"

end AnimatedLogo

/-- The two pointer events the logo mesh listens to. -/
inductive PointerEvent where
  | over
  | out
deriving DecidableEq, Repr

/-- Dispatch of one pointer event to the handler registered for it. -/
def AnimatedLogo.dispatch (s : AnimatedLogo) : PointerEvent → AnimatedLogo
  | .over => s.onPointerOver
  | .out => s.onPointerOut

/-- Dispatch of a sequence of pointer events, oldest first. -/
def AnimatedLogo.dispatchAll (s : AnimatedLogo) (es : List PointerEvent) : AnimatedLogo :=
  es.foldl AnimatedLogo.dispatch s

/-! ## `Math.random` -/

/-- A random source: `rng n` is the value returned by the `n`-th call of
`Math.random()`.  Code that draws from it threads the number of draws made. -/
abbrev RandomSource := ℕ → ℚ

/-- The contract of `Math.random`: every draw lies in `[0, 1)`. -/
def RandomSource.InUnitInterval (rng : RandomSource) : Prop :=
  ∀ n, 0 ≤ rng n ∧ rng n < 1

/-! ## `FloatingShapes` (lines 77-98) -/

/-- One element of the `shapes` array: `{ x, y, z, scale, type, key }`. -/
structure Shape where
  x : ℚ
  y : ℚ
  z : ℚ
  scale : ℚ
  type : ℤ
  key : ℕ
deriving DecidableEq, Repr

namespace FloatingShapes

/-- The constant `count` (line 79). -/
def count : ℕ := 20

/-- The `for` loop of lines 81-89.  The first argument is the number of
iterations still to run (`count - i`), `i` is the loop variable, `k` the number
of draws made so far and `shapes` the array built so far; the result is the
final array and the final number of draws. -/
def loop (rng : RandomSource) : ℕ → ℕ → ℕ → List Shape → List Shape × ℕ
  | 0, _, k, shapes => (shapes, k)
  | n + 1, i, k, shapes =>
      let x := (rng k - 1 / 2) * 20
      let y := (rng (k + 1) - 1 / 2) * 20
      let z := (rng (k + 2) - 1 / 2) * 20
      let scale := rng (k + 3) * (1 / 2) + 1 / 5
      let type := ⌊rng (k + 4) * 3⌋
      loop rng n (i + 1) (k + 5)
        (shapes ++ [{ x := x, y := y, z := z, scale := scale, type := type, key := i }])

/-- The array `shapes` at the `return` of `FloatingShapes`, with the number of
draws made, for a component body entered after `k` draws. -/
def generate (rng : RandomSource) (k : ℕ) : List Shape × ℕ :=
  loop rng count 0 k []

end FloatingShapes

/-! ## `FloatingShape` (lines 100-130) -/

/-- State of one `FloatingShape` instance: the prop `x` read by the frame
callback and `meshRef.current`. -/
structure FloatingShape where
  x : ℚ
  meshRef : Option Mesh
deriving DecidableEq, Repr

namespace FloatingShape

/-- The `useFrame` callback of `FloatingShape` (lines 103-109).  The renderer
calls it with the root state and the frame delta; the callback declares the
first parameter only and reads `state.clock.elapsedTime`. -/
def useFrame (M : MathObj) (elapsedTime : ℚ) (_delta : ℚ) (s : FloatingShape) :
    FloatingShape :=
  match s.meshRef with
  | some m =>
      let m := { m with rotation := { m.rotation with x := m.rotation.x + 1 / 100 } }
      let m := { m with rotation := { m.rotation with y := m.rotation.y + 1 / 100 } }
      let m := { m with position :=
        { m.position with y := m.position.y + M.sin (elapsedTime + s.x) * (1 / 1000) } }
      { s with meshRef := some m }
  | none => s

/-- Successive frames, oldest first; each frame is `(elapsedTime, delta)`. -/
def frames (M : MathObj) (s : FloatingShape) (ticks : List (ℚ × ℚ)) : FloatingShape :=
  ticks.foldl (fun s tick => useFrame M tick.1 tick.2 s) s

end FloatingShape

/-! ## `CodeParticles` (lines 133-169) -/

/-- A `Float32Array`, with a record of the indices assigned so far (oldest
first).  The record is ghost state: no operation reads it. -/
structure Float32Array where
  data : List ℚ
  written : List ℕ
deriving DecidableEq, Repr

namespace Float32Array

/-- Construction `new Float32Array(n)`: `n` zeros. -/
def new (n : ℕ) : Float32Array := { data := List.replicate n 0, written := [] }

/-- Assignment `a[i] = v`; an index outside the array is ignored. -/
def set (a : Float32Array) (i : ℕ) (v : ℚ) : Float32Array :=
  { data := a.data.set i v, written := a.written ++ [i] }

end Float32Array

/-- The fields of the mounted `points` object the frame callback writes. -/
structure Points where
  rotation : Euler
deriving DecidableEq, Repr

/-- State of one `CodeParticles` instance: the buffer `positions` handed to the
geometry and `particlesRef.current`. -/
structure CodeParticles where
  positions : Float32Array
  particlesRef : Option Points
deriving DecidableEq, Repr

namespace CodeParticles

/-- The constant `count` (line 135). -/
def count : ℕ := 100

/-- The `for` loop of lines 138-142: iterations still to run, loop variable
`i`, number of draws made `k`, and the buffer. -/
def loop (rng : RandomSource) : ℕ → ℕ → ℕ → Float32Array → Float32Array × ℕ
  | 0, _, k, positions => (positions, k)
  | n + 1, i, k, positions =>
      let positions := positions.set (i * 3) ((rng k - 1 / 2) * 30)
      let positions := positions.set (i * 3 + 1) ((rng (k + 1) - 1 / 2) * 30)
      let positions := positions.set (i * 3 + 2) ((rng (k + 2) - 1 / 2) * 30)
      loop rng n (i + 1) (k + 3) positions

/-- The buffer `positions` after lines 136-142, with the number of draws made,
for a component body entered after `k` draws. -/
def generate (rng : RandomSource) (k : ℕ) : Float32Array × ℕ :=
  loop rng count 0 k (Float32Array.new (count * 3))

/-- The `useFrame` callback of `CodeParticles` (lines 144-148). -/
def useFrame (elapsedTime : ℚ) (s : CodeParticles) : CodeParticles :=
  match s.particlesRef with
  | some p =>
      let p := { p with rotation := { p.rotation with y := elapsedTime * (1 / 20) } }
      { s with particlesRef := some p }
  | none => s

/-- Successive frames, oldest first, given by their elapsed times. -/
def frames (s : CodeParticles) (ts : List ℚ) : CodeParticles :=
  ts.foldl (fun s t => useFrame t s) s

end CodeParticles

/-! ## Animation set-up of `App` (lines 206-262) -/

/-- The properties animated by the `gsap.from` calls of `App`. -/
inductive Property where
  | opacity
  | y
  | rotation
  | scale
deriving DecidableEq, Repr

/-- The animated part of the `vars` object of a `gsap.from` call: the value a
property starts from, for each property the object mentions. -/
structure FromVars where
  opacity : Option ℚ := none
  y : Option ℚ := none
  rotation : Option ℚ := none
  scale : Option ℚ := none
deriving DecidableEq, Repr

/-- Lookup of a property in a `vars` object. -/
def FromVars.get (v : FromVars) : Property → Option ℚ
  | .opacity => v.opacity
  | .y => v.y
  | .rotation => v.rotation
  | .scale => v.scale

/-- The easing curves named in the source. -/
inductive Ease where
  | power3Out
  | backOut (overshoot : ℚ)
deriving DecidableEq, Repr

/-- A `gsap.from` call with a delay and a duration (lines 208-230). -/
structure IntroTween where
  target : String
  vars : FromVars
  duration : ℚ
  delay : ℚ
  ease : Ease
deriving DecidableEq, Repr

/-- The call `gsap.from` on `.hero-title` (lines 208-214). -/
def heroTitle : IntroTween :=
  { target := ".hero-title", vars := { opacity := some 0, y := some 50 },
    duration := 1, delay := 1 / 2, ease := .power3Out }

/-- The call `gsap.from` on `.hero-subtitle` (lines 216-222). -/
def heroSubtitle : IntroTween :=
  { target := ".hero-subtitle", vars := { opacity := some 0, y := some 30 },
    duration := 1, delay := 4 / 5, ease := .power3Out }

/-- The call `gsap.from` on `.cta-button` (lines 224-230). -/
def ctaButton : IntroTween :=
  { target := ".cta-button", vars := { opacity := some 0, scale := some (4 / 5) },
    duration := 4 / 5, delay := 6 / 5, ease := .backOut (17 / 10) }

/-- The three intro calls in source order. -/
def introTimeline : List IntroTween := [heroTitle, heroSubtitle, ctaButton]

/-- A position `'top P%'` of a scroll trigger: the top edge of the trigger
element meets the line at `P` percent of the viewport height. -/
structure TriggerPosition where
  percent : ℚ
deriving DecidableEq, Repr

/-- The `scrollTrigger` object of a `gsap.from` call (the trigger element is
the animated card or the enclosing section). -/
structure ScrollTriggerVars where
  start : TriggerPosition
  end_ : TriggerPosition
  scrub : ℚ
deriving DecidableEq, Repr

/-- A `gsap.from` call bound to a scroll trigger. -/
structure ScrollTween where
  vars : FromVars
  scrollTrigger : ScrollTriggerVars
deriving DecidableEq, Repr

/-- The call of lines 234-244, made once for every `.section`. -/
def sectionTitleTween : ScrollTween :=
  { scrollTrigger := { start := ⟨80⟩, end_ := ⟨50⟩, scrub := 1 },
    vars := { opacity := some 0, y := some 100, scale := some (4 / 5) } }

/-- The call of lines 249-260, made for the card at position `index` of the
array of all cards. -/
def cardTween (index : ℕ) : ScrollTween :=
  { scrollTrigger := { start := ⟨90⟩, end_ := ⟨60⟩, scrub := 1 },
    vars := { opacity := some 0, y := some 50,
              rotation := some (if index % 2 = 0 then -5 else 5),
              scale := some (9 / 10) } }

/-! ### The animation engine

The engine that plays the tweens is the imported package `gsap`; `src/` holds
only the calls.  The definitions below state its behaviour: as the
specification describes it where it does, and as the engine treats the
options the source passes or leaves out where the specification is silent. -/

/-- Modelled from the spec: `lerp(fromValue, toValue, progress)`, the linear
interpolation the orchestrator applies to every property (section 4.7); the
interpolating engine is not under `src/`. -/
def lerp (a b q : ℚ) : ℚ := a + (b - a) * q

/-- Modelled from the spec: `clamp(v, 0, 1)` of section 4.7. -/
def clamp01 (v : ℚ) : ℚ := max 0 (min 1 v)

/-- Modelled from the spec: `rawProgress = clamp((viewportReferencePoint -
startThreshold) / (endThreshold - startThreshold), 0, 1)` of section 4.7; the
scroll-trigger engine that computes it is not under `src/`. -/
def rawProgress (startThreshold endThreshold p : ℚ) : ℚ :=
  clamp01 ((p - startThreshold) / (endThreshold - startThreshold))

/-- Modelled from the spec: the value a property has once its entrance has
played (opacity `0→1`, translateY `50→0`, scale `0.9→1`, rotation `±5°→0°`,
section 4.7); the style sheet that fixes the resting values is not under
`src/`. -/
def naturalValue : Property → ℚ
  | .opacity => 1
  | .y => 0
  | .rotation => 0
  | .scale => 1

/-- The easing of a tween whose `vars` name no `ease`, as those of lines
234-244 and 249-260 (the intro tweens of lines 208-230 name theirs): the
engine falls back on `power1.out`, that is `1 - (1 - p)^2`. -/
def defaultEase (p : ℚ) : ℚ := 1 - (1 - p) ^ 2

/-- The value of a property when the scrubbed tween is at `progress`: each
property mentioned by the binding is interpolated from its from-value to its
resting value along the easing of the tween, that is
`lerp(fromValue, toValue, defaultEase(progress))`; a property the binding does
not mention keeps its resting value. -/
def ScrollTween.valueAt (tw : ScrollTween) (prop : Property) (progress : ℚ) : ℚ :=
  match tw.vars.get prop with
  | some a => lerp a (naturalValue prop) (defaultEase progress)
  | none => naturalValue prop

/-- Modelled from the spec: the easing of a timeline entry (section 3,
`Timeline`).  The curves are named by the source and defined by the engine,
which is not under `src/`: `power3.out` is `1 - (1 - p)^4`, and `back.out(s)`
is `(p - 1)^2 * ((s + 1) * (p - 1) + s) + 1` (it overshoots `1`, section 4.7),
with value `0` at `p = 0`. -/
def Ease.apply : Ease → ℚ → ℚ
  | .power3Out, p => 1 - (1 - p) ^ 4
  | .backOut s, p => if p = 0 then 0 else (p - 1) ^ 2 * ((s + 1) * (p - 1) + s) + 1

/-- Modelled from the spec: the fraction of its duration a timeline entry has
played `t` seconds after mount: nothing before its delay, everything from
`delay + duration` on (section 3, `Timeline`, and section 4.7). -/
def IntroTween.progress (e : IntroTween) (t : ℚ) : ℚ :=
  clamp01 ((t - e.delay) / e.duration)

/-- Modelled from the spec: the value of a property of a timeline entry `t`
seconds after mount, eased from its from-value to its resting value. -/
def IntroTween.valueAt (e : IntroTween) (prop : Property) (t : ℚ) : ℚ :=
  match e.vars.get prop with
  | some a => lerp a (naturalValue prop) (e.ease.apply (e.progress t))
  | none => naturalValue prop

/-- An entry has started at `t` when its delay has elapsed. -/
def IntroTween.startedAt (e : IntroTween) (t : ℚ) : Prop := e.delay ≤ t

/-- An entry has completed at `t` when its delay and its duration have
elapsed. -/
def IntroTween.completedAt (e : IntroTween) (t : ℚ) : Prop := e.delay + e.duration ≤ t

instance (e : IntroTween) (t : ℚ) : Decidable (e.startedAt t) :=
  inferInstanceAs (Decidable (e.delay ≤ t))

instance (e : IntroTween) (t : ℚ) : Decidable (e.completedAt t) :=
  inferInstanceAs (Decidable (e.delay + e.duration ≤ t))

/-! ## Scroll bindings of `App` (lines 233-261) -/

/-- Modelled from the spec: the threshold of a `ScrollBinding` (section 3) as a
scroll position.  The source gives each threshold as a position `'top P%'`;
the engine that turns it into a number is not under `src/`.  The position is
reached when the top edge of the trigger, `top` below the start of the page,
is `P` percent of the viewport height `h` below the top of the viewport. -/
def TriggerPosition.scrollPosition (pos : TriggerPosition) (top h : ℚ) : ℚ :=
  top - pos.percent / 100 * h

/-- Modelled from the spec: a `ScrollBinding` (section 3): the registered tween
with its trigger range `[startThreshold, endThreshold]`. -/
structure ScrollBinding where
  tween : ScrollTween
  startThreshold : ℚ
  endThreshold : ℚ
deriving DecidableEq, Repr

/-- One call `gsap.from(target, { scrollTrigger: ..., ... })` for a trigger
whose top edge is at `top`, in a viewport of height `h`.  The source makes the
call without any test on the thresholds.  The engine keeps no empty range:
where the two positions coincide it moves the start `0.01` below the end. -/
def ScrollTween.register (tw : ScrollTween) (top h : ℚ) : ScrollBinding :=
  let start := tw.scrollTrigger.start.scrollPosition top h
  let end_ := tw.scrollTrigger.end_.scrollPosition top h
  { tween := tw
    startThreshold := if end_ - start = 0 then start - 1 / 100 else start
    endThreshold := end_ }

/-- The loop `forEach((card, index) => ...)` of lines 248-261 over the tops of
the cards, `index` counting from the first argument. -/
def registerCards (h : ℚ) : ℕ → List ℚ → List ScrollBinding
  | _, [] => []
  | index, top :: rest => (cardTween index).register top h :: registerCards h (index + 1) rest

/-- The two loops of lines 233-261: one binding for every `.section` (given by
the tops of the sections), then one for every card (given by the tops of the
cards), in a viewport of height `h`. -/
def registerAll (sectionTops cardTops : List ℚ) (h : ℚ) : List ScrollBinding :=
  sectionTops.map (fun top => sectionTitleTween.register top h) ++ registerCards h 0 cardTops

/-- The playhead of a scrubbed tween: the progress `applied` to the animated
properties, and for the catch-up under way its `origin`, its `target` and the
seconds `elapsed` since the scroll event that started it. -/
structure Playhead where
  applied : ℚ
  origin : ℚ
  target : ℚ
  elapsed : ℚ
deriving DecidableEq, Repr

/-- A scroll event at reference point `p`.  The source registers every binding
with `scrub: 1` (lines 239 and 254), a number: the engine (package `gsap`, not
under `src/`) reads a numeric `scrub` as the seconds the playhead takes to
catch up with the scroll progress.  The event sets the target of the catch-up
and leaves the applied progress where it is. -/
def ScrollBinding.onScroll (b : ScrollBinding) (p : ℚ) (st : Playhead) : Playhead :=
  { applied := st.applied
    origin := st.applied
    target := rawProgress b.startThreshold b.endThreshold p
    elapsed := 0 }

/-- A frame `dt` seconds later without scroll event: the applied progress is on
its way from `origin` to `target`, which it reaches `scrub` seconds after the
scroll event; `curve` is the easing of the catch-up, a function of the engine. -/
def ScrollBinding.onTick (curve : ℚ → ℚ) (b : ScrollBinding) (dt : ℚ) (st : Playhead) :
    Playhead :=
  let elapsed := st.elapsed + dt
  { st with
    elapsed := elapsed
    applied := st.origin +
      (st.target - st.origin) * curve (clamp01 (elapsed / b.tween.scrollTrigger.scrub)) }

/-- Successive frames without scroll event, oldest first, given by their
durations in seconds. -/
def ScrollBinding.frames (curve : ℚ → ℚ) (b : ScrollBinding) (st : Playhead)
    (dts : List ℚ) : Playhead :=
  dts.foldl (fun st dt => b.onTick curve dt st) st

/-- The value a property of the target has for a given playhead. -/
def ScrollBinding.appliedValue (b : ScrollBinding) (prop : Property) (st : Playhead) : ℚ :=
  b.tween.valueAt prop st.applied

/-! ## The cards of the page (lines 364-700) -/

/-- The class names of the card-like elements of the page in document order:
two `experience-card` (lines 368, 387), three `certification-card`, four
`project-card`, eight `skill-category`, two `contact-card`. -/
def pageCards : List String :=
  List.replicate 2 "experience-card" ++ List.replicate 3 "certification-card" ++
    List.replicate 4 "project-card" ++ List.replicate 8 "skill-category" ++
    List.replicate 2 "contact-card"

/-- The selector of line 248, a list of class selectors. -/
def cardSelector : List String := ["project-card", "skill-category", "experience-card"]

/-- Selection `gsap.utils.toArray(selector)`: the elements matching one of the
selectors, in document order. -/
def toArray (selector : List String) (document : List String) : List String :=
  document.filter (fun c => selector.contains c)

/-- The array the loop of lines 248-261 runs over. -/
def cards : List String := toArray cardSelector pageCards

/-- The index, in `cards`, of the first card of the group of the card at
`index`. -/
def groupStart (index : ℕ) : ℕ :=
  match cards[index]? with
  | some c => cards.indexOf c
  | none => index

/-! ## The scene (lines 172-198) -/

/-- The shape that one iteration of the loop of `FloatingShapes` builds when it
is entered with loop variable `i` after `k` draws. -/
def Shape.ofDraws (rng : RandomSource) (k i : ℕ) : Shape :=
  { x := (rng k - 1 / 2) * 20, y := (rng (k + 1) - 1 / 2) * 20,
    z := (rng (k + 2) - 1 / 2) * 20, scale := rng (k + 3) * (1 / 2) + 1 / 5,
    type := ⌊rng (k + 4) * 3⌋, key := i }

/-- What one evaluation of `FloatingShape` hands to the renderer: the props of
the shape (position, geometry) and the hue of the material colour. -/
structure ShapeView where
  shape : Shape
  hue : ℚ
deriving DecidableEq, Repr

/-- One evaluation of `FloatingShape` (lines 100-130) entered after `k` draws:
line 123 draws the hue. -/
def FloatingShape.render (rng : RandomSource) (k : ℕ) (shape : Shape) : ShapeView × ℕ :=
  ({ shape := shape, hue := rng k }, k + 1)

/-- The clock `state.clock` of the renderer, a `THREE.Clock` (library `three`,
not under `src/`): `elapsedTime` in seconds as of the last refresh, `oldTime`
the wall-clock time of that refresh in milliseconds. -/
structure Clock where
  autoStart : Bool
  startTime : ℚ
  oldTime : ℚ
  elapsedTime : ℚ
  running : Bool
deriving DecidableEq, Repr

namespace Clock

/-- Method `start()` called at wall-clock time `now`. -/
def start (c : Clock) (now : ℚ) : Clock :=
  { c with startTime := now, oldTime := now, elapsedTime := 0, running := true }

/-- Method `getDelta()` called at wall-clock time `now`: a running clock is
refreshed, its `elapsedTime` advancing by the seconds since the last refresh. -/
def getDelta (c : Clock) (now : ℚ) : ℚ × Clock :=
  if c.autoStart && !c.running then (0, c.start now)
  else if c.running then
    let diff := (now - c.oldTime) / 1000
    (diff, { c with oldTime := now, elapsedTime := c.elapsedTime + diff })
  else (0, c)

/-- Method `getElapsedTime()` called at wall-clock time `now`: it refreshes the
clock with `getDelta()` and returns the refreshed `elapsedTime`. -/
def getElapsedTime (c : Clock) (now : ℚ) : ℚ × Clock :=
  ((c.getDelta now).2.elapsedTime, (c.getDelta now).2)

end Clock

/-- The state the frame callbacks of the scene act on: the clock of the
renderer and the objects of the three components. -/
structure Scene where
  clock : Clock
  logo : AnimatedLogo
  shapes : List FloatingShape
  particles : CodeParticles
deriving DecidableEq, Repr

/-- The frame callbacks subscribed by the components of `Scene3D`: the one of
the logo, the one of the shape instance at a given position, the one of the
particle field. -/
inductive FrameCallback where
  | logo
  | shape (i : ℕ)
  | particles
deriving DecidableEq, Repr

/-- Application of a callback to the instance at position `i` of a list of
instances. -/
def updateAt {α : Type} (f : α → α) : ℕ → List α → List α
  | _, [] => []
  | 0, a :: l => f a :: l
  | i + 1, a :: l => a :: updateAt f i l

/-- One callback run at wall-clock time `now` (milliseconds) with frame delta
`delta`.  The callback of the logo calls `state.clock.getElapsedTime()` (line
46), which refreshes the clock; the callbacks of a shape and of the particle
field read the field `state.clock.elapsedTime` (lines 107 and 146). -/
def Scene.run (M : MathObj) (now delta : ℚ) (s : Scene) : FrameCallback → Scene
  | .logo =>
      { s with
        clock := (s.clock.getElapsedTime now).2
        logo := s.logo.useFrame M (s.clock.getElapsedTime now).1 }
  | .shape i =>
      { s with
        shapes := updateAt (FloatingShape.useFrame M s.clock.elapsedTime delta) i s.shapes }
  | .particles => { s with particles := s.particles.useFrame s.clock.elapsedTime }

/-- The callbacks of one tick run in a given order, all at wall-clock time
`now`. -/
def Scene.runAll (M : MathObj) (now delta : ℚ) (s : Scene) (order : List FrameCallback) :
    Scene :=
  order.foldl (Scene.run M now delta) s

/-! ## Theorems -/

/-! ### Shape generation -/

/-- The range a generated shape is expected to lie in. -/
theorem shape_range_of_draws (a b c d e : ℚ) (i : ℕ)
    (ha : 0 ≤ a ∧ a < 1) (hb : 0 ≤ b ∧ b < 1) (hc : 0 ≤ c ∧ c < 1)
    (hd : 0 ≤ d ∧ d < 1) (he : 0 ≤ e ∧ e < 1) :
    let s : Shape :=
      { x := (a - 1 / 2) * 20, y := (b - 1 / 2) * 20, z := (c - 1 / 2) * 20,
        scale := d * (1 / 2) + 1 / 5, type := ⌊e * 3⌋, key := i }
    (-10 ≤ s.x ∧ s.x ≤ 10) ∧ (-10 ≤ s.y ∧ s.y ≤ 10) ∧ (-10 ≤ s.z ∧ s.z ≤ 10) ∧
      (1 / 5 ≤ s.scale ∧ s.scale ≤ 7 / 10) ∧ (s.type = 0 ∨ s.type = 1 ∨ s.type = 2) := by
  intro s
  obtain ⟨ha0, ha1⟩ := ha
  obtain ⟨hb0, hb1⟩ := hb
  obtain ⟨hc0, hc1⟩ := hc
  obtain ⟨hd0, hd1⟩ := hd
  obtain ⟨he0, he1⟩ := he
  have hf0 : (0 : ℤ) ≤ ⌊e * 3⌋ := Int.floor_nonneg.mpr (by linarith)
  have hf3 : ⌊e * 3⌋ < (3 : ℤ) := Int.floor_lt.mpr (by push_cast; linarith)
  refine ⟨⟨?_, ?_⟩, ⟨?_, ?_⟩, ⟨?_, ?_⟩, ⟨?_, ?_⟩, ?_⟩
  · show -10 ≤ (a - 1 / 2) * 20
    linarith
  · show (a - 1 / 2) * 20 ≤ 10
    linarith
  · show -10 ≤ (b - 1 / 2) * 20
    linarith
  · show (b - 1 / 2) * 20 ≤ 10
    linarith
  · show -10 ≤ (c - 1 / 2) * 20
    linarith
  · show (c - 1 / 2) * 20 ≤ 10
    linarith
  · show 1 / 5 ≤ d * (1 / 2) + 1 / 5
    linarith
  · show d * (1 / 2) + 1 / 5 ≤ 7 / 10
    linarith
  · show ⌊e * 3⌋ = 0 ∨ ⌊e * 3⌋ = 1 ∨ ⌊e * 3⌋ = 2
    omega

/-- The loop appends one shape per remaining iteration. -/
theorem floatingShapes_loop_length (rng : RandomSource) (n i k : ℕ) (acc : List Shape) :
    (FloatingShapes.loop rng n i k acc).1.length = acc.length + n := by
  induction n generalizing i k acc with
  | zero => simp [FloatingShapes.loop]
  | succ n ih =>
      simp only [FloatingShapes.loop]
      rw [ih]
      simp only [List.length_append, List.length_singleton]
      omega

/-- The loop makes five draws per remaining iteration. -/
theorem floatingShapes_loop_draws (rng : RandomSource) (n i k : ℕ) (acc : List Shape) :
    (FloatingShapes.loop rng n i k acc).2 = k + 5 * n := by
  induction n generalizing i k acc with
  | zero => simp [FloatingShapes.loop]
  | succ n ih =>
      simp only [FloatingShapes.loop]
      rw [ih]
      omega

/-- A property of shapes that holds of the array so far and of every shape
built from draws in `[0, 1)` holds of the array the loop returns. -/
theorem floatingShapes_loop_forall (rng : RandomSource) (h : rng.InUnitInterval)
    (n i k : ℕ) (acc : List Shape) (s : Shape)
    (hs : s ∈ (FloatingShapes.loop rng n i k acc).1) :
    s ∈ acc ∨
      ((-10 ≤ s.x ∧ s.x ≤ 10) ∧ (-10 ≤ s.y ∧ s.y ≤ 10) ∧ (-10 ≤ s.z ∧ s.z ≤ 10) ∧
        (1 / 5 ≤ s.scale ∧ s.scale ≤ 7 / 10) ∧ (s.type = 0 ∨ s.type = 1 ∨ s.type = 2)) := by
  induction n generalizing i k acc with
  | zero => exact Or.inl (by simpa [FloatingShapes.loop] using hs)
  | succ n ih =>
      simp only [FloatingShapes.loop] at hs
      rcases ih _ _ _ hs with hmem | hr
      · rcases List.mem_append.mp hmem with hacc | hnew
        · exact Or.inl hacc
        · right
          rw [List.mem_singleton.mp hnew]
          exact shape_range_of_draws _ _ _ _ _ i (h k) (h (k + 1)) (h (k + 2))
            (h (k + 3)) (h (k + 4))
      · exact Or.inr hr

/-! ### Scroll progress -/

/-- The clamp yields a value of `[0, 1]`. -/
theorem clamp01_mem (v : ℚ) : 0 ≤ clamp01 v ∧ clamp01 v ≤ 1 := by
  unfold clamp01
  exact ⟨le_max_left _ _, max_le (by norm_num) (min_le_left _ _)⟩

/-- The clamp is monotone. -/
theorem clamp01_mono (u v : ℚ) (h : u ≤ v) : clamp01 u ≤ clamp01 v := by
  unfold clamp01
  exact max_le_max le_rfl (min_le_min le_rfl h)

/-- The clamp of a value that is not positive is `0`. -/
theorem clamp01_of_nonpos (v : ℚ) (h : v ≤ 0) : clamp01 v = 0 := by
  unfold clamp01
  rw [min_eq_right (by linarith), max_eq_left h]

/-- The clamp of a value that is at least `1` is `1`. -/
theorem clamp01_of_one_le (v : ℚ) (h : 1 ≤ v) : clamp01 v = 1 := by
  unfold clamp01
  rw [min_eq_left h, max_eq_right (by norm_num)]

/-- The clamp leaves a value of `[0, 1]` alone. -/
theorem clamp01_of_mem (v : ℚ) (h0 : 0 ≤ v) (h1 : v ≤ 1) : clamp01 v = v := by
  unfold clamp01
  rw [min_eq_right h1, max_eq_right h0]

/-! ### Particle generation -/

/-- The loop keeps the size of the buffer. -/
theorem codeParticles_loop_length (rng : RandomSource) (n i k : ℕ) (a : Float32Array) :
    (CodeParticles.loop rng n i k a).1.data.length = a.data.length := by
  induction n generalizing i k a with
  | zero => simp [CodeParticles.loop]
  | succ n ih =>
      simp only [CodeParticles.loop]
      rw [ih]
      simp [Float32Array.set]

/-- The loop makes three draws per remaining iteration. -/
theorem codeParticles_loop_draws (rng : RandomSource) (n i k : ℕ) (a : Float32Array) :
    (CodeParticles.loop rng n i k a).2 = k + 3 * n := by
  induction n generalizing i k a with
  | zero => simp [CodeParticles.loop]
  | succ n ih =>
      simp only [CodeParticles.loop]
      rw [ih]
      omega

/-- The loop assigns the indices `3i, 3i+1, ...` in ascending order, three per
remaining iteration. -/
theorem codeParticles_loop_written (rng : RandomSource) (n i k : ℕ) (a : Float32Array) :
    (CodeParticles.loop rng n i k a).1.written = a.written ++ List.range' (i * 3) (3 * n) := by
  induction n generalizing i k a with
  | zero => simp [CodeParticles.loop]
  | succ n ih =>
      simp only [CodeParticles.loop]
      rw [ih]
      have h3 : 3 * (n + 1) = 3 * n + 1 + 1 + 1 := by omega
      have hi : (i + 1) * 3 = i * 3 + 1 + 1 + 1 := by omega
      rw [h3, hi]
      simp [Float32Array.set, List.range']

/-- Every value the loop stores lies in `[-15, 15]` when the draws lie in
`[0, 1)`. -/
theorem codeParticles_loop_bounds (rng : RandomSource) (h : rng.InUnitInterval)
    (n i k : ℕ) (a : Float32Array) (ha : ∀ v ∈ a.data, -15 ≤ v ∧ v ≤ 15) :
    ∀ v ∈ (CodeParticles.loop rng n i k a).1.data, -15 ≤ v ∧ v ≤ 15 := by
  induction n generalizing i k a with
  | zero => simpa [CodeParticles.loop] using ha
  | succ n ih =>
      simp only [CodeParticles.loop]
      apply ih
      have hstep : ∀ (l : List ℚ) (j d : ℕ), (∀ v ∈ l, -15 ≤ v ∧ v ≤ 15) →
          ∀ v ∈ l.set j ((rng d - 1 / 2) * 30), -15 ≤ v ∧ v ≤ 15 := by
        intro l j d hl v hv
        rcases List.mem_or_eq_of_mem_set hv with hmem | heq
        · exact hl v hmem
        · obtain ⟨h0, h1⟩ := h d
          rw [heq]
          constructor <;> linarith
      intro v hv
      simp only [Float32Array.set] at hv
      exact hstep _ _ _ (hstep _ _ _ (hstep _ _ _ ha)) v hv

/-- What the loop leaves at every index: indices below `3i` are untouched, and
index `3i + j` of the range the loop covers holds the value computed from draw
`k + j`. -/
theorem codeParticles_loop_get (rng : RandomSource) (n i k : ℕ) (a : Float32Array)
    (hlen : (i + n) * 3 ≤ a.data.length) (m : ℕ) :
    (m < i * 3 → (CodeParticles.loop rng n i k a).1.data[m]? = a.data[m]?) ∧
    (i * 3 ≤ m → m < (i + n) * 3 →
      (CodeParticles.loop rng n i k a).1.data[m]? =
        some ((rng (k + (m - i * 3)) - 1 / 2) * 30)) := by
  induction n generalizing i k a with
  | zero =>
      refine ⟨fun _ => by simp [CodeParticles.loop], fun h1 h2 => ?_⟩
      omega
  | succ n ih =>
      simp only [CodeParticles.loop]
      have hlen2 : (i + 1 + n) * 3 ≤
          (((a.set (i * 3) ((rng k - 1 / 2) * 30)).set (i * 3 + 1)
            ((rng (k + 1) - 1 / 2) * 30)).set (i * 3 + 2)
            ((rng (k + 2) - 1 / 2) * 30)).data.length := by
        simp only [Float32Array.set, List.length_set]
        omega
      obtain ⟨hlow, hhigh⟩ := ih (i + 1) (k + 3) _ hlen2
      constructor
      · intro hm
        rw [hlow (by omega)]
        simp only [Float32Array.set]
        rw [List.getElem?_set_ne (by omega), List.getElem?_set_ne (by omega),
          List.getElem?_set_ne (by omega)]
      · intro h1 h2
        by_cases hm : m < (i + 1) * 3
        · rw [hlow hm]
          simp only [Float32Array.set]
          have hcase : m = i * 3 ∨ m = i * 3 + 1 ∨ m = i * 3 + 2 := by omega
          rcases hcase with h | h | h
          · subst h
            rw [List.getElem?_set_ne (by omega), List.getElem?_set_ne (by omega),
              List.getElem?_set_self (by omega)]
            simp
          · subst h
            rw [List.getElem?_set_ne (by omega),
              List.getElem?_set_self (by simp only [List.length_set]; omega)]
            simp
          · subst h
            rw [List.getElem?_set_self (by simp only [List.length_set]; omega)]
            simp
        · rw [hhigh (by omega) (by omega)]
          have hidx : k + 3 + (m - (i + 1) * 3) = k + (m - i * 3) := by omega
          rw [hidx]

/-! ### Intro timeline -/

/-- Both easing curves end at `1`. -/
theorem ease_apply_one (e : Ease) : e.apply 1 = 1 := by
  cases e <;> simp [Ease.apply]

/-- Linear interpolation ends at its second argument. -/
theorem lerp_one (a b : ℚ) : lerp a b 1 = b := by
  unfold lerp
  ring

/-- A completed entry of positive duration has every property at its resting
value. -/
theorem introTween_completed_value (e : IntroTween) (t : ℚ) (hd : 0 < e.duration)
    (h : e.completedAt t) (prop : Property) :
    e.valueAt prop t = naturalValue prop := by
  have hp : e.progress t = 1 := by
    unfold IntroTween.progress
    apply clamp01_of_one_le
    rw [le_div_iff₀ hd]
    unfold IntroTween.completedAt at h
    linarith
  unfold IntroTween.valueAt
  cases e.vars.get prop with
  | none => rfl
  | some a => simp only [hp, ease_apply_one, lerp_one]

/-- C1: for every elapsed time `t`, every mounted logo mesh `m` (whatever its
previous rotation and position) and either hover state, the per-tick update
leaves a mesh with `rotation.x = cos(t/2)/2`, `rotation.y = sin(t/3)/2` and
`position.y = sin(t) * 0.1`; the other coordinates and the hover flag are
untouched. -/
theorem logo_useFrame_sets (M : MathObj) (t : ℚ) (m : Mesh) (hovered : Bool) :
    AnimatedLogo.useFrame M t { meshRef := some m, hovered := hovered } =
      { meshRef := some
          { rotation := { x := M.cos (t / 2) / 2, y := M.sin (t / 3) / 2, z := m.rotation.z }
            position := { x := m.position.x, y := M.sin t * (1 / 10), z := m.position.z } }
        hovered := hovered } := by
  rfl

/-- C5: scale and color of the logo depend on the `hovered` flag alone: after
any event sequence ending in pointer-over they are `1.2` and `#00ffff`, after
any sequence ending in pointer-out they are `1` and `#a855f7`; a repeated
pointer-over changes nothing, and out followed by over restores the hovered
values. -/
theorem logo_hover_two_valued (s : AnimatedLogo) (es : List PointerEvent) :
    ((s.dispatchAll (es ++ [PointerEvent.over])).scale = 6 / 5 ∧
      (s.dispatchAll (es ++ [PointerEvent.over])).color = "#00ffff") ∧
    ((s.dispatchAll (es ++ [PointerEvent.out])).scale = 1 ∧
      (s.dispatchAll (es ++ [PointerEvent.out])).color = "#a855f7") ∧
    (s.onPointerOver.onPointerOver = s.onPointerOver) ∧
    (s.onPointerOver.onPointerOut.onPointerOver = s.onPointerOver) ∧
    (∀ u : AnimatedLogo, u.scale = (if u.hovered then 6 / 5 else 1) ∧
      u.color = (if u.hovered then "#00ffff" else "#a855f7")) := by
  refine ⟨?_, ?_, rfl, rfl, fun u => ⟨rfl, rfl⟩⟩
  · simp [AnimatedLogo.dispatchAll, List.foldl_append, AnimatedLogo.dispatch,
      AnimatedLogo.onPointerOver, AnimatedLogo.scale, AnimatedLogo.color]
  · simp [AnimatedLogo.dispatchAll, List.foldl_append, AnimatedLogo.dispatch,
      AnimatedLogo.onPointerOut, AnimatedLogo.scale, AnimatedLogo.color]

/-- C2: for every random source whose draws lie in `[0, 1)` (and whatever the
number of draws made before), the shape generation of `FloatingShapes` returns
exactly 20 shapes, each with `x`, `y`, `z` in `[-10, 10]`, `scale` in
`[0.2, 0.7]` and `type` in `{0, 1, 2}`. -/
theorem floatingShapes_generate_spec (rng : RandomSource) (k : ℕ)
    (h : rng.InUnitInterval) :
    (FloatingShapes.generate rng k).1.length = 20 ∧
    ∀ s ∈ (FloatingShapes.generate rng k).1,
      (-10 ≤ s.x ∧ s.x ≤ 10) ∧ (-10 ≤ s.y ∧ s.y ≤ 10) ∧ (-10 ≤ s.z ∧ s.z ≤ 10) ∧
        (1 / 5 ≤ s.scale ∧ s.scale ≤ 7 / 10) ∧ (s.type = 0 ∨ s.type = 1 ∨ s.type = 2) := by
  refine ⟨?_, fun s hs => ?_⟩
  · simp [FloatingShapes.generate, floatingShapes_loop_length, FloatingShapes.count]
  · rcases floatingShapes_loop_forall rng h _ _ _ _ s hs with hnil | hr
    · simp at hnil
    · exact hr

/-- Witness of C2 at the constant source `1/2`. -/
theorem floatingShapes_generate_spec_witness :
    (FloatingShapes.generate (fun _ => 1 / 2) 0).1.length = 20 ∧
    ∀ s ∈ (FloatingShapes.generate (fun _ => 1 / 2) 0).1,
      (-10 ≤ s.x ∧ s.x ≤ 10) ∧ (-10 ≤ s.y ∧ s.y ≤ 10) ∧ (-10 ≤ s.z ∧ s.z ≤ 10) ∧
        (1 / 5 ≤ s.scale ∧ s.scale ≤ 7 / 10) ∧ (s.type = 0 ∨ s.type = 1 ∨ s.type = 2) :=
  floatingShapes_generate_spec (fun _ => 1 / 2) 0 (fun _ => by norm_num)

/-- C3: for a scrub binding with `startThreshold < endThreshold` and every
scroll reference point `p`: `p ≤ startThreshold` gives progress `0`,
`p ≥ endThreshold` gives progress `1`, progress lies in `[0, 1]`, and progress
is monotone in `p`. -/
theorem rawProgress_spec (startThreshold endThreshold : ℚ)
    (h : startThreshold < endThreshold) :
    (∀ p, p ≤ startThreshold → rawProgress startThreshold endThreshold p = 0) ∧
    (∀ p, endThreshold ≤ p → rawProgress startThreshold endThreshold p = 1) ∧
    (∀ p, 0 ≤ rawProgress startThreshold endThreshold p ∧
      rawProgress startThreshold endThreshold p ≤ 1) ∧
    (∀ p q, p ≤ q →
      rawProgress startThreshold endThreshold p ≤
        rawProgress startThreshold endThreshold q) := by
  have hd : 0 < endThreshold - startThreshold := by linarith
  refine ⟨fun p hp => ?_, fun p hp => ?_, fun p => clamp01_mem _, fun p q hpq => ?_⟩
  · apply clamp01_of_nonpos
    exact div_nonpos_of_nonpos_of_nonneg (by linarith) hd.le
  · apply clamp01_of_one_le
    rw [le_div_iff₀ hd]
    linarith
  · apply clamp01_mono
    exact div_le_div_of_nonneg_right (by linarith) hd.le

/-- Witness of C3 at the trigger range `[100, 500]`. -/
theorem rawProgress_spec_witness :
    (∀ p : ℚ, p ≤ 100 → rawProgress 100 500 p = 0) ∧
    (∀ p : ℚ, 500 ≤ p → rawProgress 100 500 p = 1) ∧
    (∀ p : ℚ, 0 ≤ rawProgress 100 500 p ∧ rawProgress 100 500 p ≤ 1) ∧
    (∀ p q : ℚ, p ≤ q → rawProgress 100 500 p ≤ rawProgress 100 500 q) :=
  rawProgress_spec 100 500 (by norm_num)

/-- C4, refuted as stated: with thresholds `100` and `500` the progress at the
reference point `300` is `0.5`, and there the card of index `0` has rotation
`-1.25` and the card of index `1` rotation `1.25`, not the `-2.5` and `2.5` of
`lerp(-5, 0, 0.5)` and `lerp(5, 0, 0.5)`; the opacity is `0.75`, not
`lerp(0, 1, 0.5) = 0.5`. -/
theorem cardTween_not_linear :
    rawProgress 100 500 300 = 1 / 2 ∧
    ((cardTween 0).valueAt .rotation (rawProgress 100 500 300) = -5 / 4 ∧
      lerp (-5) 0 (1 / 2) = -5 / 2) ∧
    ((cardTween 1).valueAt .rotation (rawProgress 100 500 300) = 5 / 4 ∧
      lerp 5 0 (1 / 2) = 5 / 2) ∧
    ((cardTween 0).valueAt .opacity (rawProgress 100 500 300) = 3 / 4 ∧
      lerp 0 1 (1 / 2) = 1 / 2) := by
  have hp : rawProgress 100 500 300 = 1 / 2 := by
    unfold rawProgress
    rw [clamp01_of_mem _ (by norm_num) (by norm_num)]
    norm_num
  rw [hp]
  refine ⟨rfl, ⟨?_, ?_⟩, ⟨?_, ?_⟩, ?_, ?_⟩ <;>
    norm_num [cardTween, ScrollTween.valueAt, FromVars.get, naturalValue, lerp, defaultEase]

/-- C4 as amended: for every card index `i` and every progress `q` (in
particular every `q` of `[0, 1]`), the card entrance has rotation
`lerp(-5, 0, e(q))` when `i` is even and `lerp(5, 0, e(q))` when `i` is odd,
`e(q) = 1 - (1 - q)^2` being the easing of a tween that names none, while
opacity `lerp(0, 1, e(q))`, translateY `lerp(50, 0, e(q))` and scale
`lerp(0.9, 1, e(q))` are those of every other index `j`; the entrance starts
from rotation `-5` or `5`, opacity `0`, translateY `50`, scale `0.9` and ends
at `0`, `1`, `0`, `1`; with thresholds `100` and `500` the progress at `300` is
`0.5`, where index `0` has rotation `-1.25` and index `1` has rotation
`1.25`. -/
theorem cardTween_values (i : ℕ) (q : ℚ) :
    ((cardTween i).valueAt .rotation q =
      if i % 2 = 0 then lerp (-5) 0 (1 - (1 - q) ^ 2) else lerp 5 0 (1 - (1 - q) ^ 2)) ∧
    ((cardTween i).valueAt .opacity q = lerp 0 1 (1 - (1 - q) ^ 2) ∧
      (cardTween i).valueAt .y q = lerp 50 0 (1 - (1 - q) ^ 2) ∧
      (cardTween i).valueAt .scale q = lerp (9 / 10) 1 (1 - (1 - q) ^ 2)) ∧
    (∀ j : ℕ, (cardTween i).valueAt .opacity q = (cardTween j).valueAt .opacity q ∧
      (cardTween i).valueAt .y q = (cardTween j).valueAt .y q ∧
      (cardTween i).valueAt .scale q = (cardTween j).valueAt .scale q) ∧
    (((cardTween i).valueAt .rotation 0 = if i % 2 = 0 then -5 else 5) ∧
      (cardTween i).valueAt .opacity 0 = 0 ∧ (cardTween i).valueAt .y 0 = 50 ∧
      (cardTween i).valueAt .scale 0 = 9 / 10) ∧
    ((cardTween i).valueAt .rotation 1 = 0 ∧ (cardTween i).valueAt .opacity 1 = 1 ∧
      (cardTween i).valueAt .y 1 = 0 ∧ (cardTween i).valueAt .scale 1 = 1) ∧
    (rawProgress 100 500 300 = 1 / 2 ∧
      (cardTween 0).valueAt .rotation (rawProgress 100 500 300) = -5 / 4 ∧
      (cardTween 1).valueAt .rotation (rawProgress 100 500 300) = 5 / 4) := by
  have hp : rawProgress 100 500 300 = 1 / 2 := by
    unfold rawProgress
    rw [clamp01_of_mem _ (by norm_num) (by norm_num)]
    norm_num
  refine ⟨?_, ⟨rfl, rfl, rfl⟩, fun j => ⟨rfl, rfl, rfl⟩, ⟨?_, ?_, ?_, ?_⟩,
    ⟨?_, ?_, ?_, ?_⟩, hp, ?_, ?_⟩
  · by_cases h : i % 2 = 0
    · simp [cardTween, ScrollTween.valueAt, FromVars.get, naturalValue, defaultEase, h]
    · simp [cardTween, ScrollTween.valueAt, FromVars.get, naturalValue, defaultEase, h]
  · by_cases h : i % 2 = 0
    · norm_num [cardTween, ScrollTween.valueAt, FromVars.get, naturalValue, lerp,
        defaultEase, h]
    · norm_num [cardTween, ScrollTween.valueAt, FromVars.get, naturalValue, lerp,
        defaultEase, h]
  · norm_num [cardTween, ScrollTween.valueAt, FromVars.get, naturalValue, lerp, defaultEase]
  · norm_num [cardTween, ScrollTween.valueAt, FromVars.get, naturalValue, lerp, defaultEase]
  · norm_num [cardTween, ScrollTween.valueAt, FromVars.get, naturalValue, lerp, defaultEase]
  · by_cases h : i % 2 = 0
    · norm_num [cardTween, ScrollTween.valueAt, FromVars.get, naturalValue, lerp,
        defaultEase, h]
    · norm_num [cardTween, ScrollTween.valueAt, FromVars.get, naturalValue, lerp,
        defaultEase, h]
  · norm_num [cardTween, ScrollTween.valueAt, FromVars.get, naturalValue, lerp, defaultEase]
  · norm_num [cardTween, ScrollTween.valueAt, FromVars.get, naturalValue, lerp, defaultEase]
  · norm_num [cardTween, ScrollTween.valueAt, FromVars.get, naturalValue, lerp, defaultEase]
  · rw [hp]
    norm_num [cardTween, ScrollTween.valueAt, FromVars.get, naturalValue, lerp, defaultEase]
  · rw [hp]
    norm_num [cardTween, ScrollTween.valueAt, FromVars.get, naturalValue, lerp, defaultEase]

/-- C6: for every elapsed time `t` and every particle buffer, the per-tick
update of the mounted particle field sets the rotation about the vertical axis
to `t * 0.05` and leaves the position buffer unchanged; after any number of
updates the buffer is still the initial one and the rotation is `0.05` times
the time of the last update. -/
theorem codeParticles_useFrame_spec (t : ℚ) (buf : Float32Array) (p : Points)
    (ts : List ℚ) :
    CodeParticles.useFrame t { positions := buf, particlesRef := some p } =
      { positions := buf
        particlesRef := some
          { rotation := { x := p.rotation.x, y := t * (1 / 20), z := p.rotation.z } } } ∧
    (CodeParticles.frames { positions := buf, particlesRef := some p } ts).positions = buf ∧
    (CodeParticles.frames { positions := buf, particlesRef := some p } (ts ++ [t])) =
      { positions := buf
        particlesRef := some
          { rotation := { x := p.rotation.x, y := t * (1 / 20), z := p.rotation.z } } } := by
  have key : ∀ (l : List ℚ) (q : Points), q.rotation.x = p.rotation.x →
      q.rotation.z = p.rotation.z →
      ∃ q2 : Points, q2.rotation.x = p.rotation.x ∧ q2.rotation.z = p.rotation.z ∧
        CodeParticles.frames { positions := buf, particlesRef := some q } l =
          { positions := buf, particlesRef := some q2 } := by
    intro l
    induction l with
    | nil => exact fun q hx hz => ⟨q, hx, hz, rfl⟩
    | cons u l ih =>
        intro q hx hz
        exact ih { rotation := { q.rotation with y := u * (1 / 20) } } hx hz
  refine ⟨rfl, ?_, ?_⟩
  · obtain ⟨q2, _, _, hq⟩ := key ts p rfl rfl
    rw [hq]
  · obtain ⟨q2, hx, hz, hq⟩ := key ts p rfl rfl
    unfold CodeParticles.frames at hq ⊢
    rw [List.foldl_append, hq]
    simp [CodeParticles.useFrame, hx, hz]

/-- C7: for every random source whose draws lie in `[0, 1)`, the particle
generation returns a buffer of exactly 300 numbers; the indices assigned are
`0, 1, ..., 299`, each exactly once; point `i` occupies the indices `3i`,
`3i+1`, `3i+2`, holding the values computed from draws `3i`, `3i+1`, `3i+2`
of the generation; and every number lies in `[-15, 15]`. -/
theorem codeParticles_generate_spec (rng : RandomSource) (k : ℕ)
    (h : rng.InUnitInterval) :
    (CodeParticles.generate rng k).1.data.length = 300 ∧
    (CodeParticles.generate rng k).1.written = List.range 300 ∧
    (∀ m, m < 300 → (CodeParticles.generate rng k).1.written.count m = 1) ∧
    (∀ i j, i < 100 → j < 3 →
      (CodeParticles.generate rng k).1.data[3 * i + j]? =
        some ((rng (k + (3 * i + j)) - 1 / 2) * 30)) ∧
    (∀ v ∈ (CodeParticles.generate rng k).1.data, -15 ≤ v ∧ v ≤ 15) := by
  have hw : (CodeParticles.generate rng k).1.written = List.range 300 := by
    unfold CodeParticles.generate
    rw [codeParticles_loop_written, List.range_eq_range']
    have e1 : 0 * 3 = 0 := rfl
    have e2 : 3 * CodeParticles.count = 300 := rfl
    rw [e1, e2]
    exact List.nil_append _
  refine ⟨?_, hw, fun m hm => ?_, fun i j hi hj => ?_, ?_⟩
  · unfold CodeParticles.generate
    rw [codeParticles_loop_length]
    exact List.length_replicate _ _
  · rw [hw]
    exact List.count_eq_one_of_mem (List.nodup_range 300) (List.mem_range.mpr hm)
  · unfold CodeParticles.generate
    have hlen : (0 + CodeParticles.count) * 3 ≤
        (Float32Array.new (CodeParticles.count * 3)).data.length := by
      have e3 : (Float32Array.new (CodeParticles.count * 3)).data.length =
          CodeParticles.count * 3 := List.length_replicate _ _
      rw [e3]
      omega
    have hget := (codeParticles_loop_get rng CodeParticles.count 0 k
      (Float32Array.new (CodeParticles.count * 3)) hlen (3 * i + j)).2
      (by omega) (by simp only [CodeParticles.count]; omega)
    rw [hget, Nat.zero_mul, Nat.sub_zero]
  · unfold CodeParticles.generate
    apply codeParticles_loop_bounds rng h
    intro v hv
    simp only [Float32Array.new] at hv
    rw [List.eq_of_mem_replicate hv]
    norm_num

/-- Witness of C7 at the constant source `1/2`. -/
theorem codeParticles_generate_spec_witness :
    (CodeParticles.generate (fun _ => 1 / 2) 0).1.data.length = 300 ∧
    (CodeParticles.generate (fun _ => 1 / 2) 0).1.written = List.range 300 ∧
    (∀ m, m < 300 → (CodeParticles.generate (fun _ => 1 / 2) 0).1.written.count m = 1) ∧
    (∀ i j, i < 100 → j < 3 →
      (CodeParticles.generate (fun _ => 1 / 2) 0).1.data[3 * i + j]? =
        some (((fun _ => 1 / 2 : RandomSource) (0 + (3 * i + j)) - 1 / 2) * 30)) ∧
    (∀ v ∈ (CodeParticles.generate (fun _ => 1 / 2) 0).1.data, -15 ≤ v ∧ v ≤ 15) :=
  codeParticles_generate_spec (fun _ => 1 / 2) 0 (fun _ => by norm_num)

/-- C8, refuted as stated: at `t = 0.6` the title entry has not completed (its
delay and duration end at `1.5`) and its opacity is not `1`. -/
theorem introTitle_not_completed_at_06 :
    ¬ heroTitle.completedAt (3 / 5) ∧ heroTitle.valueAt .opacity (3 / 5) ≠ 1 := by
  constructor
  · norm_num [IntroTween.completedAt, heroTitle]
  · norm_num [IntroTween.valueAt, IntroTween.progress, heroTitle, FromVars.get,
      naturalValue, Ease.apply, lerp, clamp01]

/-- C8 as amended: at `t = 0.6` the title entry has started but not completed
its visibility transition (its opacity lies strictly between `0` and `1`); it
has completed, with opacity `1`, at `t = 1.5`; the subtitle entry has not
started at `t = 0.6` and its opacity is `0`. -/
theorem intro_at_06 :
    (heroTitle.startedAt (3 / 5) ∧ ¬ heroTitle.completedAt (3 / 5) ∧
      0 < heroTitle.valueAt .opacity (3 / 5) ∧ heroTitle.valueAt .opacity (3 / 5) < 1) ∧
    (heroTitle.completedAt (3 / 2) ∧ heroTitle.valueAt .opacity (3 / 2) = 1) ∧
    (¬ heroSubtitle.startedAt (3 / 5) ∧ heroSubtitle.valueAt .opacity (3 / 5) = 0) := by
  refine ⟨⟨?_, ?_, ?_, ?_⟩, ⟨?_, ?_⟩, ?_, ?_⟩
  · norm_num [IntroTween.startedAt, heroTitle]
  · norm_num [IntroTween.completedAt, heroTitle]
  · norm_num [IntroTween.valueAt, IntroTween.progress, heroTitle, FromVars.get,
      naturalValue, Ease.apply, lerp, clamp01]
  · norm_num [IntroTween.valueAt, IntroTween.progress, heroTitle, FromVars.get,
      naturalValue, Ease.apply, lerp, clamp01]
  · norm_num [IntroTween.completedAt, heroTitle]
  · norm_num [IntroTween.valueAt, IntroTween.progress, heroTitle, FromVars.get,
      naturalValue, Ease.apply, lerp, clamp01]
  · norm_num [IntroTween.startedAt, heroSubtitle]
  · norm_num [IntroTween.valueAt, IntroTween.progress, heroSubtitle, FromVars.get,
      naturalValue, Ease.apply, lerp, clamp01]

/-- C9, refuted as stated: at `t = 1.3` none of the three intro entries has
completed; each start delay plus duration (`1.5`, `1.8`, `2.0`) exceeds `1.3`,
and no opacity has reached its final value `1`. -/
theorem intro_not_completed_at_13 :
    (¬ heroTitle.completedAt (13 / 10) ∧ ¬ heroSubtitle.completedAt (13 / 10) ∧
      ¬ ctaButton.completedAt (13 / 10)) ∧
    (heroTitle.delay + heroTitle.duration = 3 / 2 ∧
      heroSubtitle.delay + heroSubtitle.duration = 9 / 5 ∧
      ctaButton.delay + ctaButton.duration = 2) ∧
    (heroTitle.valueAt .opacity (13 / 10) ≠ 1 ∧
      heroSubtitle.valueAt .opacity (13 / 10) ≠ 1 ∧
      ctaButton.valueAt .opacity (13 / 10) ≠ 1) := by
  refine ⟨⟨?_, ?_, ?_⟩, ⟨?_, ?_, ?_⟩, ?_, ?_, ?_⟩
  · norm_num [IntroTween.completedAt, heroTitle]
  · norm_num [IntroTween.completedAt, heroSubtitle]
  · norm_num [IntroTween.completedAt, ctaButton]
  · norm_num [heroTitle]
  · norm_num [heroSubtitle]
  · norm_num [ctaButton]
  · norm_num [IntroTween.valueAt, IntroTween.progress, heroTitle, FromVars.get,
      naturalValue, Ease.apply, lerp, clamp01]
  · norm_num [IntroTween.valueAt, IntroTween.progress, heroSubtitle, FromVars.get,
      naturalValue, Ease.apply, lerp, clamp01]
  · norm_num [IntroTween.valueAt, IntroTween.progress, ctaButton, FromVars.get,
      naturalValue, Ease.apply, lerp, clamp01]

/-- C9 as amended: at every `t ≥ 2.0` all three intro entries have completed,
each property being at its final value, and no entry's start delay plus
duration exceeds `2.0`; at `t = 1.3` all three have started and none has
completed. -/
theorem intro_completed_from_2 (t : ℚ) (ht : 2 ≤ t) :
    (∀ e ∈ introTimeline,
      e.completedAt t ∧ ∀ prop, e.valueAt prop t = naturalValue prop) ∧
    (∀ e ∈ introTimeline, e.delay + e.duration ≤ 2) ∧
    (∀ e ∈ introTimeline, e.startedAt (13 / 10) ∧ ¬ e.completedAt (13 / 10)) := by
  have hall : ∀ e ∈ introTimeline, 0 < e.duration ∧ e.delay + e.duration ≤ 2 ∧
      e.delay ≤ 13 / 10 ∧ 13 / 10 < e.delay + e.duration := by
    intro e he
    simp only [introTimeline, List.mem_cons, List.mem_singleton, List.not_mem_nil,
      or_false] at he
    rcases he with rfl | rfl | rfl
    · norm_num [heroTitle]
    · norm_num [heroSubtitle]
    · norm_num [ctaButton]
  refine ⟨fun e he => ?_, fun e he => (hall e he).2.1, fun e he => ?_⟩
  · obtain ⟨hd, h2, _, _⟩ := hall e he
    have hc : e.completedAt t := by
      unfold IntroTween.completedAt
      linarith
    exact ⟨hc, fun prop => introTween_completed_value e t hd hc prop⟩
  · obtain ⟨_, _, hs, hn⟩ := hall e he
    exact ⟨hs, not_le.mpr hn⟩

/-- Witness of C9 as amended, at `t = 2`. -/
theorem intro_completed_from_2_witness :
    (∀ e ∈ introTimeline,
      e.completedAt 2 ∧ ∀ prop, e.valueAt prop 2 = naturalValue prop) ∧
    (∀ e ∈ introTimeline, e.delay + e.duration ≤ 2) ∧
    (∀ e ∈ introTimeline, e.startedAt (13 / 10) ∧ ¬ e.completedAt (13 / 10)) :=
  intro_completed_from_2 2 (le_refl 2)

/-- C10: at every tick, whatever the frame delta, the update of a mounted
shape adds `0.01` to `rotation.x` and to `rotation.y` and adds
`sin(t + x) * 0.001` to `position.y`, `x` being the shape's own x-coordinate;
after `n` ticks `rotation.x` and `rotation.y` are their initial values plus
`0.01 * n`, and `position.y` has gained the sum of the per-tick terms. -/
theorem floatingShape_useFrame_spec (M : MathObj) (x t d : ℚ) (m : Mesh)
    (ticks : List (ℚ × ℚ)) :
    FloatingShape.useFrame M t d { x := x, meshRef := some m } =
      { x := x
        meshRef := some
          { rotation :=
              { x := m.rotation.x + 1 / 100, y := m.rotation.y + 1 / 100, z := m.rotation.z }
            position :=
              { x := m.position.x, y := m.position.y + M.sin (t + x) * (1 / 1000),
                z := m.position.z } } } ∧
    (∀ d2 : ℚ, FloatingShape.useFrame M t d2 { x := x, meshRef := some m } =
      FloatingShape.useFrame M t d { x := x, meshRef := some m }) ∧
    (FloatingShape.frames M { x := x, meshRef := some m } ticks =
      { x := x
        meshRef := some
          { rotation :=
              { x := m.rotation.x + 1 / 100 * ticks.length,
                y := m.rotation.y + 1 / 100 * ticks.length, z := m.rotation.z }
            position :=
              { x := m.position.x,
                y := m.position.y +
                  (ticks.map (fun tick => M.sin (tick.1 + x) * (1 / 1000))).sum,
                z := m.position.z } } }) := by
  refine ⟨rfl, fun _ => rfl, ?_⟩
  induction ticks generalizing m with
  | nil => simp [FloatingShape.frames]
  | cons tick rest ih =>
      have hstep : FloatingShape.frames M { x := x, meshRef := some m } (tick :: rest) =
          FloatingShape.frames M
            { x := x
              meshRef := some
                { rotation :=
                    { x := m.rotation.x + 1 / 100, y := m.rotation.y + 1 / 100,
                      z := m.rotation.z }
                  position :=
                    { x := m.position.x,
                      y := m.position.y + M.sin (tick.1 + x) * (1 / 1000),
                      z := m.position.z } } } rest := rfl
      rw [hstep, ih]
      simp only [List.length_cons, List.map_cons, List.sum_cons, Nat.cast_add, Nat.cast_one]
      congr 4 <;> ring

/-! ### Registration of the scroll bindings -/

/-- The loop over the cards registers one binding per card. -/
theorem registerCards_length (h : ℚ) (index : ℕ) (tops : List ℚ) :
    (registerCards h index tops).length = tops.length := by
  induction tops generalizing index with
  | nil => rfl
  | cons top rest ih => simp [registerCards, ih]

/-- Every binding the loop over the cards registers is the card tween of some
index, registered for some top. -/
theorem registerCards_mem (h : ℚ) (index : ℕ) (tops : List ℚ) (b : ScrollBinding)
    (hb : b ∈ registerCards h index tops) :
    ∃ i top, b = (cardTween i).register top h := by
  induction tops generalizing index with
  | nil => simp [registerCards] at hb
  | cons top rest ih =>
      simp only [registerCards, List.mem_cons] at hb
      rcases hb with rfl | hb
      · exact ⟨index, top, rfl⟩
      · exact ih (index + 1) hb

/-- Every registered binding is the section-title tween or a card tween,
registered for some top. -/
theorem registerAll_mem (sectionTops cardTops : List ℚ) (h : ℚ) (b : ScrollBinding)
    (hb : b ∈ registerAll sectionTops cardTops h) :
    (∃ top, b = sectionTitleTween.register top h) ∨
      ∃ i top, b = (cardTween i).register top h := by
  rcases List.mem_append.mp hb with hs | hc
  · obtain ⟨top, _, rfl⟩ := List.mem_map.mp hs
    exact Or.inl ⟨top, rfl⟩
  · exact Or.inr (registerCards_mem h 0 cardTops b hc)

/-- The thresholds of a section-title binding in a viewport of height `h`:
the two positions, the start moved `0.01` down where they coincide. -/
theorem sectionTitle_register (top h : ℚ) :
    (sectionTitleTween.register top h).startThreshold =
      (if h = 0 then top - 1 / 100 else top - 4 / 5 * h) ∧
    (sectionTitleTween.register top h).endThreshold = top - 1 / 2 * h := by
  simp only [ScrollTween.register, TriggerPosition.scrollPosition, sectionTitleTween]
  by_cases hz : h = 0
  · subst hz
    norm_num
  · have hne : ¬ (top - 50 / 100 * h - (top - 80 / 100 * h) = 0) := by
      intro h0
      apply hz
      linarith
    rw [if_neg hne, if_neg hz]
    constructor <;> ring

/-- The thresholds of a card binding in a viewport of height `h`. -/
theorem cardTween_register (i : ℕ) (top h : ℚ) :
    ((cardTween i).register top h).startThreshold =
      (if h = 0 then top - 1 / 100 else top - 9 / 10 * h) ∧
    ((cardTween i).register top h).endThreshold = top - 3 / 5 * h := by
  simp only [ScrollTween.register, TriggerPosition.scrollPosition, cardTween]
  by_cases hz : h = 0
  · subst hz
    norm_num
  · have hne : ¬ (top - 60 / 100 * h - (top - 90 / 100 * h) = 0) := by
      intro h0
      apply hz
      linarith
    rw [if_neg hne, if_neg hz]
    constructor <;> ring

/-- The range of every registered binding: `0.3` times the viewport height,
and `0.01` in a viewport of height `0`; its `scrub` is `1`. -/
theorem registerAll_range (sectionTops cardTops : List ℚ) (h : ℚ) (b : ScrollBinding)
    (hb : b ∈ registerAll sectionTops cardTops h) :
    b.endThreshold - b.startThreshold = (if h = 0 then 1 / 100 else 3 / 10 * h) ∧
      b.tween.scrollTrigger.scrub = 1 := by
  rcases registerAll_mem sectionTops cardTops h b hb with ⟨top, rfl⟩ | ⟨i, top, rfl⟩
  · refine ⟨?_, rfl⟩
    obtain ⟨hs, he⟩ := sectionTitle_register top h
    rw [hs, he]
    by_cases hz : h = 0
    · subst hz
      norm_num
    · rw [if_neg hz, if_neg hz]
      ring
  · refine ⟨?_, rfl⟩
    obtain ⟨hs, he⟩ := cardTween_register i top h
    rw [hs, he]
    by_cases hz : h = 0
    · subst hz
      norm_num
    · rw [if_neg hz, if_neg hz]
      ring

/-- C16: for every binding the program registers (section titles from
`'top 80%'` to `'top 50%'`, cards from `'top 90%'` to `'top 60%'`), every top
of the trigger and every viewport height `h > 0`, the trigger range has
`endThreshold - startThreshold = 0.3 * h > 0`: the denominator of the progress
quotient is not zero. -/
theorem registered_range_pos (sectionTops cardTops : List ℚ) (h : ℚ) (hh : 0 < h) :
    (∀ top : ℚ,
      (sectionTitleTween.register top h).startThreshold = top - 4 / 5 * h ∧
      (sectionTitleTween.register top h).endThreshold = top - 1 / 2 * h) ∧
    (∀ (i : ℕ) (top : ℚ),
      ((cardTween i).register top h).startThreshold = top - 9 / 10 * h ∧
      ((cardTween i).register top h).endThreshold = top - 3 / 5 * h) ∧
    (∀ b ∈ registerAll sectionTops cardTops h,
      b.endThreshold - b.startThreshold = 3 / 10 * h ∧
      0 < b.endThreshold - b.startThreshold ∧
      b.endThreshold - b.startThreshold ≠ 0) := by
  have hz : ¬ h = 0 := ne_of_gt hh
  refine ⟨fun top => ?_, fun i top => ?_, fun b hb => ?_⟩
  · obtain ⟨hs, he⟩ := sectionTitle_register top h
    rw [if_neg hz] at hs
    exact ⟨hs, he⟩
  · obtain ⟨hs, he⟩ := cardTween_register i top h
    rw [if_neg hz] at hs
    exact ⟨hs, he⟩
  · have hr := (registerAll_range sectionTops cardTops h b hb).1
    rw [if_neg hz] at hr
    have hpos : 0 < b.endThreshold - b.startThreshold := by
      rw [hr]
      linarith
    exact ⟨hr, hpos, ne_of_gt hpos⟩

/-- Witness of C16: two sections and two cards in a viewport of height
`1000`. -/
theorem registered_range_pos_witness :
    (∀ top : ℚ,
      (sectionTitleTween.register top 1000).startThreshold = top - 4 / 5 * 1000 ∧
      (sectionTitleTween.register top 1000).endThreshold = top - 1 / 2 * 1000) ∧
    (∀ (i : ℕ) (top : ℚ),
      ((cardTween i).register top 1000).startThreshold = top - 9 / 10 * 1000 ∧
      ((cardTween i).register top 1000).endThreshold = top - 3 / 5 * 1000) ∧
    (∀ b ∈ registerAll [0, 800] [1000, 1400] 1000,
      b.endThreshold - b.startThreshold = 3 / 10 * 1000 ∧
      0 < b.endThreshold - b.startThreshold ∧
      b.endThreshold - b.startThreshold ≠ 0) :=
  registered_range_pos [0, 800] [1000, 1400] 1000 (by norm_num)

/-- C12, refuted as stated: in a viewport of height `0` the two positions of a
section at `500` coincide, and so do those of a card at `900`: the configured
end is not above the configured start.  Registration rejects neither: it
creates two bindings, with thresholds `(499.99, 500)` and `(899.99, 900)`. -/
theorem registerAll_zero_height :
    (sectionTitleTween.scrollTrigger.end_.scrollPosition 500 0 ≤
        sectionTitleTween.scrollTrigger.start.scrollPosition 500 0 ∧
      (cardTween 0).scrollTrigger.end_.scrollPosition 900 0 ≤
        (cardTween 0).scrollTrigger.start.scrollPosition 900 0) ∧
    (registerAll [500] [900] 0).length = 2 ∧
    (registerAll [500] [900] 0).map (fun b => (b.startThreshold, b.endThreshold)) =
      [(49999 / 100, 500), (89999 / 100, 900)] := by
  refine ⟨⟨?_, ?_⟩, rfl, ?_⟩
  · norm_num [TriggerPosition.scrollPosition, sectionTitleTween]
  · norm_num [TriggerPosition.scrollPosition, cardTween]
  · norm_num [registerAll, registerCards, ScrollTween.register,
      TriggerPosition.scrollPosition, sectionTitleTween, cardTween]

/-- C12 as amended: registration rejects nothing: for every viewport height
`h ≥ 0` it creates one binding for every section and every card, whatever the
tops, also where the two configured positions coincide; every binding it
creates has `startThreshold < endThreshold`, so the denominator
`endThreshold - startThreshold` of the progress quotient is never zero. -/
theorem registerAll_no_validation (sectionTops cardTops : List ℚ) (h : ℚ) (hh : 0 ≤ h) :
    (registerAll sectionTops cardTops h).length = sectionTops.length + cardTops.length ∧
    (∀ b ∈ registerAll sectionTops cardTops h,
      b.startThreshold < b.endThreshold ∧ b.endThreshold - b.startThreshold ≠ 0) := by
  refine ⟨?_, fun b hb => ?_⟩
  · simp [registerAll, registerCards_length]
  · have hr := (registerAll_range sectionTops cardTops h b hb).1
    have hpos : 0 < b.endThreshold - b.startThreshold := by
      rw [hr]
      by_cases hz : h = 0
      · rw [if_pos hz]
        norm_num
      · rw [if_neg hz]
        have hlt : 0 < h := lt_of_le_of_ne hh (Ne.symm hz)
        linarith
    exact ⟨by linarith, ne_of_gt hpos⟩

/-- Witness of C12 as amended: one section and one card in a viewport of
height `0`. -/
theorem registerAll_no_validation_witness :
    (registerAll [500] [900] 0).length = [(500 : ℚ)].length + [(900 : ℚ)].length ∧
    (∀ b ∈ registerAll [500] [900] 0,
      b.startThreshold < b.endThreshold ∧ b.endThreshold - b.startThreshold ≠ 0) :=
  registerAll_no_validation [500] [900] 0 (le_refl 0)

/-! ### Scrubbing -/

/-- Frames without scroll event keep the origin and the target of the catch-up
and add their durations to the time elapsed. -/
theorem frames_fields (curve : ℚ → ℚ) (b : ScrollBinding) (st : Playhead) (dts : List ℚ) :
    (b.frames curve st dts).origin = st.origin ∧
    (b.frames curve st dts).target = st.target ∧
    (b.frames curve st dts).elapsed = st.elapsed + dts.sum := by
  induction dts generalizing st with
  | nil => simp [ScrollBinding.frames]
  | cons dt rest ih =>
      have hstep : b.frames curve st (dt :: rest) =
          b.frames curve (b.onTick curve dt st) rest := rfl
      rw [hstep]
      obtain ⟨ho, ht, he⟩ := ih (b.onTick curve dt st)
      refine ⟨ho, ht, ?_⟩
      rw [he, List.sum_cons]
      simp only [ScrollBinding.onTick]
      ring

/-- The applied progress after at least one frame: on the way from the origin
to the target, as far as the catch-up curve puts it for the time elapsed. -/
theorem frames_applied (curve : ℚ → ℚ) (b : ScrollBinding) (st : Playhead)
    (dts : List ℚ) (dt : ℚ) :
    (b.frames curve st (dts ++ [dt])).applied =
      st.origin + (st.target - st.origin) *
        curve (clamp01 ((st.elapsed + (dts ++ [dt]).sum) / b.tween.scrollTrigger.scrub)) := by
  have hsplit : b.frames curve st (dts ++ [dt]) =
      b.onTick curve dt (b.frames curve st dts) := by
    simp [ScrollBinding.frames, List.foldl_append]
  obtain ⟨ho, ht, he⟩ := frames_fields curve b st dts
  rw [hsplit]
  simp only [ScrollBinding.onTick, ho, ht, he, List.sum_append, List.sum_cons, List.sum_nil]
  congr 4
  ring

/-- Once the frames since a scroll event add up to the catch-up time of a
binding with `scrub = 1`, and for a catch-up curve that ends at `1`, the
applied progress is the target. -/
theorem frames_caught_up (curve : ℚ → ℚ) (hc : curve 1 = 1) (b : ScrollBinding)
    (hs : b.tween.scrollTrigger.scrub = 1) (p : ℚ) (st : Playhead) (dts : List ℚ) (dt : ℚ)
    (hsum : 1 ≤ (dts ++ [dt]).sum) :
    (b.frames curve (b.onScroll p st) (dts ++ [dt])).applied =
      rawProgress b.startThreshold b.endThreshold p := by
  rw [frames_applied, hs]
  simp only [ScrollBinding.onScroll]
  rw [clamp01_of_one_le _ (by simpa using hsum), hc]
  ring

/-- C11, refuted as stated: the card binding of index `0` with trigger range
`[100, 400]` is one the program registers; with the playhead at `0`, a scroll
to the reference point `400` leaves the applied opacity at `0`, although
`lerp(0, 1, rawProgress(400))` is `1`; and at that same reference point a
playhead that was at `1` applies opacity `1`. -/
theorem scrub_lags_behind :
    (cardTween 0).register 1000 1000 ∈ registerAll [] [1000] 1000 ∧
    ((cardTween 0).register 1000 1000).startThreshold = 100 ∧
    ((cardTween 0).register 1000 1000).endThreshold = 400 ∧
    ((cardTween 0).register 1000 1000).appliedValue .opacity
      (((cardTween 0).register 1000 1000).onScroll 400
        { applied := 0, origin := 0, target := 0, elapsed := 1 }) = 0 ∧
    lerp 0 1 (rawProgress 100 400 400) = 1 ∧
    ((cardTween 0).register 1000 1000).appliedValue .opacity
      (((cardTween 0).register 1000 1000).onScroll 400
        { applied := 1, origin := 1, target := 1, elapsed := 1 }) = 1 := by
  have hp : rawProgress 100 400 400 = 1 := by
    unfold rawProgress
    rw [clamp01_of_one_le _ (by norm_num)]
  refine ⟨?_, ?_, ?_, ?_, ?_, ?_⟩
  · simp [registerAll, registerCards]
  · norm_num [ScrollTween.register, TriggerPosition.scrollPosition, cardTween]
  · norm_num [ScrollTween.register, TriggerPosition.scrollPosition, cardTween]
  · norm_num [ScrollBinding.appliedValue, ScrollBinding.onScroll, ScrollTween.register,
      ScrollTween.valueAt, FromVars.get, cardTween, naturalValue, lerp, defaultEase]
  · rw [hp]
    norm_num [lerp]
  · norm_num [ScrollBinding.appliedValue, ScrollBinding.onScroll, ScrollTween.register,
      ScrollTween.valueAt, FromVars.get, cardTween, naturalValue, lerp, defaultEase]

/-- C11 as amended: for every binding the program registers in a viewport of
height `h > 0` (its trigger range is not empty), a scroll event at the
reference point `p` leaves the applied values as they are; after frames whose
durations add up to `τ` seconds the applied progress is
`origin + (rawProgress(p) - origin) * c(min(1, max(0, τ)))`, `origin` being
the progress applied before the event and `c` the catch-up curve of the
engine; once the frames since the event add up to at least one second, the
value applied to each property the binding names is
`lerp(fromValue, toValue, e(rawProgress(p)))` with `e(x) = 1 - (1 - x)^2`;
and scrolling to another point `q` and back to `p`, each time followed by
frames of at least one second in all, restores exactly the values held at
`p`. -/
theorem scrub_catch_up (curve : ℚ → ℚ) (hc : curve 1 = 1)
    (sectionTops cardTops : List ℚ) (h : ℚ) (hh : 0 < h) (b : ScrollBinding)
    (hb : b ∈ registerAll sectionTops cardTops h)
    (p q : ℚ) (st : Playhead) (prop : Property)
    (dts : List ℚ) (dt : ℚ) (rest : List ℚ) (last : ℚ) (hsum : 1 ≤ (rest ++ [last]).sum) :
    0 < b.endThreshold - b.startThreshold ∧
    b.appliedValue prop (b.onScroll p st) = b.appliedValue prop st ∧
    (b.frames curve (b.onScroll p st) (dts ++ [dt])).applied =
      st.applied + (rawProgress b.startThreshold b.endThreshold p - st.applied) *
        curve (clamp01 ((dts ++ [dt]).sum)) ∧
    b.appliedValue prop (b.frames curve (b.onScroll p st) (rest ++ [last])) =
      (match b.tween.vars.get prop with
        | some a =>
            lerp a (naturalValue prop)
              (1 - (1 - rawProgress b.startThreshold b.endThreshold p) ^ 2)
        | none => naturalValue prop) ∧
    b.appliedValue prop
        (b.frames curve (b.onScroll p
          (b.frames curve (b.onScroll q
            (b.frames curve (b.onScroll p st) (rest ++ [last]))) (rest ++ [last])))
          (rest ++ [last])) =
      b.appliedValue prop (b.frames curve (b.onScroll p st) (rest ++ [last])) := by
  obtain ⟨hr, hs⟩ := registerAll_range sectionTops cardTops h b hb
  rw [if_neg (ne_of_gt hh)] at hr
  refine ⟨by rw [hr]; linarith, rfl, ?_, ?_, ?_⟩
  · rw [frames_applied, hs]
    simp only [ScrollBinding.onScroll, zero_add, div_one]
  · unfold ScrollBinding.appliedValue
    rw [frames_caught_up curve hc b hs p st rest last hsum]
    rfl
  · unfold ScrollBinding.appliedValue
    rw [frames_caught_up curve hc b hs p _ rest last hsum,
      frames_caught_up curve hc b hs p st rest last hsum]

/-- Witness of C11 as amended: the card binding with trigger range
`[100, 400]`, a linear catch-up, a scroll to the reference point `250`
followed by two frames of half a second. -/
theorem scrub_catch_up_witness :
    ((cardTween 0).register 1000 1000).appliedValue .opacity
        (((cardTween 0).register 1000 1000).frames (fun x => x)
          (((cardTween 0).register 1000 1000).onScroll 250 ⟨0, 0, 0, 1⟩)
          ([1 / 2] ++ [1 / 2])) =
      (match ((cardTween 0).register 1000 1000).tween.vars.get .opacity with
        | some a =>
            lerp a (naturalValue .opacity)
              (1 - (1 - rawProgress ((cardTween 0).register 1000 1000).startThreshold
                ((cardTween 0).register 1000 1000).endThreshold 250) ^ 2)
        | none => naturalValue .opacity) :=
  (scrub_catch_up (fun x => x) rfl [] [1000] 1000 (by norm_num)
    ((cardTween 0).register 1000 1000) (by simp [registerAll, registerCards])
    250 400 ⟨0, 0, 0, 1⟩ .opacity [1 / 4] (1 / 4) [1 / 2] (1 / 2) (by norm_num)).2.2.2.1

/-! ### The cards of the page -/

/-- The array of cards: two experience cards, four project cards, eight skill
categories, in document order. -/
theorem cards_eq :
    cards = List.replicate 2 "experience-card" ++ List.replicate 4 "project-card" ++
      List.replicate 8 "skill-category" := by
  decide

/-- C15: the card animation runs over one list of the 14 cards in document
order (2 experience cards, 4 project cards, 8 skill categories); the groups
start at the even indices `0`, `2` and `6`, so for every card the parity of
its index in the list is the parity of its index within its group, and the
rotation it enters from is `-5` for the cards of even index within their
group, among them the first card of each group, and `+5` for the others. -/
theorem cards_parity :
    (cards = List.replicate 2 "experience-card" ++ List.replicate 4 "project-card" ++
      List.replicate 8 "skill-category" ∧ cards.length = 14) ∧
    (List.map groupStart (List.range 14) = [0, 0, 2, 2, 2, 2, 6, 6, 6, 6, 6, 6, 6, 6]) ∧
    (∀ g : Fin 14, groupStart g % 2 = 0 ∧ (g : ℕ) % 2 = ((g : ℕ) - groupStart g) % 2 ∧
      (cardTween g).vars.rotation =
        some (if ((g : ℕ) - groupStart g) % 2 = 0 then -5 else 5)) ∧
    ((cardTween 0).vars.rotation = some (-5) ∧ (cardTween 2).vars.rotation = some (-5) ∧
      (cardTween 6).vars.rotation = some (-5)) := by
  have hstart : List.map groupStart (List.range 14) =
      [0, 0, 2, 2, 2, 2, 6, 6, 6, 6, 6, 6, 6, 6] := by decide
  refine ⟨⟨cards_eq, by decide⟩, hstart, ?_, ⟨rfl, rfl, rfl⟩⟩
  intro g
  have hg : groupStart g % 2 = 0 ∧ (g : ℕ) % 2 = ((g : ℕ) - groupStart g) % 2 := by
    revert g
    decide
  refine ⟨hg.1, hg.2, ?_⟩
  simp only [cardTween, hg.2]

/-! ### Evaluation of the shape field -/

/-- The loop of `FloatingShapes` in closed form: iteration `j` appends the shape
built from the five draws starting at `k + 5 (j - i)`. -/
theorem floatingShapes_loop_eq (rng : RandomSource) (n i k : ℕ) (acc : List Shape) :
    FloatingShapes.loop rng n i k acc =
      (acc ++ (List.range' i n).map (fun j => Shape.ofDraws rng (k + 5 * (j - i)) j),
        k + 5 * n) := by
  induction n generalizing i k acc with
  | zero => simp [FloatingShapes.loop]
  | succ n ih =>
      have hstep : FloatingShapes.loop rng (n + 1) i k acc =
          FloatingShapes.loop rng n (i + 1) (k + 5) (acc ++ [Shape.ofDraws rng k i]) := rfl
      rw [hstep, ih]
      have hmap : (List.range' (i + 1) n).map
            (fun j => Shape.ofDraws rng (k + 5 + 5 * (j - (i + 1))) j) =
          (List.range' (i + 1) n).map (fun j => Shape.ofDraws rng (k + 5 * (j - i)) j) := by
        apply List.map_congr_left
        intro j hj
        have hj1 : i + 1 ≤ j := (List.mem_range'_1.mp hj).1
        have hidx : k + 5 + 5 * (j - (i + 1)) = k + 5 * (j - i) := by omega
        rw [hidx]
      rw [hmap]
      have hr : List.range' i (n + 1) = i :: List.range' (i + 1) n := rfl
      rw [hr]
      simp only [List.map_cons, Nat.sub_self, Nat.mul_zero, Nat.add_zero, List.append_assoc,
        List.singleton_append]
      congr 1
      omega

/-- The array `shapes` of one evaluation of `FloatingShapes` in closed form:
shape `i` is built from the draws `k + 5 i, ..., k + 5 i + 4`, and the
evaluation makes 100 draws. -/
theorem floatingShapes_generate_eq (rng : RandomSource) (k : ℕ) :
    FloatingShapes.generate rng k =
      ((List.range' 0 20).map (fun i => Shape.ofDraws rng (k + 5 * i) i), k + 100) := by
  unfold FloatingShapes.generate
  rw [floatingShapes_loop_eq]
  simp only [List.nil_append, FloatingShapes.count, Nat.sub_zero]

/-- C14, refuted as stated: for the random source whose `n`-th draw is
`(n mod 1000) / 1000`, the evaluation at scene init (no draw made) and a
re-evaluation entered after 420 draws yield different arrays of shapes: the
first shape, of key `0`, has other coordinates, scale and type; and the hue
its component draws is `0.1` when drawn as draw `100` and `0.52` when drawn as
draw `520`. -/
theorem floatingShapes_rerender_differs :
    RandomSource.InUnitInterval (fun n => ((n % 1000 : ℕ) : ℚ) / 1000) ∧
    (FloatingShapes.generate (fun n => ((n % 1000 : ℕ) : ℚ) / 1000) 0).1.head? =
      some { x := -10, y := -499 / 50, z := -249 / 25, scale := 403 / 2000,
             type := 0, key := 0 } ∧
    (FloatingShapes.generate (fun n => ((n % 1000 : ℕ) : ℚ) / 1000) 420).1.head? =
      some { x := -8 / 5, y := -79 / 50, z := -39 / 25, scale := 823 / 2000,
             type := 1, key := 0 } ∧
    (FloatingShapes.generate (fun n => ((n % 1000 : ℕ) : ℚ) / 1000) 0).1 ≠
      (FloatingShapes.generate (fun n => ((n % 1000 : ℕ) : ℚ) / 1000) 420).1 ∧
    (∀ shape : Shape,
      (FloatingShape.render (fun n => ((n % 1000 : ℕ) : ℚ) / 1000) 100 shape).1.hue = 1 / 10 ∧
      (FloatingShape.render (fun n => ((n % 1000 : ℕ) : ℚ) / 1000) 520 shape).1.hue =
        13 / 25) := by
  have hr : List.range' 0 20 = 0 :: List.range' 1 19 := rfl
  have h0 : (FloatingShapes.generate (fun n => ((n % 1000 : ℕ) : ℚ) / 1000) 0).1.head? =
      some { x := -10, y := -499 / 50, z := -249 / 25, scale := 403 / 2000,
             type := 0, key := 0 } := by
    rw [floatingShapes_generate_eq, hr]
    simp only [List.map_cons, List.head?_cons, Shape.ofDraws]
    have hf : ⌊((4 : ℚ) / 1000) * 3⌋ = 0 := by
      rw [Int.floor_eq_iff]
      norm_num
    norm_num [hf]
  have h1 : (FloatingShapes.generate (fun n => ((n % 1000 : ℕ) : ℚ) / 1000) 420).1.head? =
      some { x := -8 / 5, y := -79 / 50, z := -39 / 25, scale := 823 / 2000,
             type := 1, key := 0 } := by
    rw [floatingShapes_generate_eq, hr]
    simp only [List.map_cons, List.head?_cons, Shape.ofDraws]
    have hf : ⌊((424 : ℚ) / 1000) * 3⌋ = 1 := by
      rw [Int.floor_eq_iff]
      norm_num
    norm_num [hf]
  refine ⟨fun n => ?_, h0, h1, fun heq => ?_, fun shape => ?_⟩
  · have hlt : n % 1000 < 1000 := Nat.mod_lt n (by norm_num)
    have hq : ((n % 1000 : ℕ) : ℚ) < 1000 := by exact_mod_cast hlt
    have hq0 : (0 : ℚ) ≤ ((n % 1000 : ℕ) : ℚ) := Nat.cast_nonneg _
    constructor
    · positivity
    · rw [div_lt_one (by norm_num)]
      exact hq
  · rw [heq, h1] at h0
    have hx := congrArg (fun v => v.map (fun w => w.x)) h0
    norm_num at hx
  · constructor <;> norm_num [FloatingShape.render]

/-- C14 as amended: the shapes are generated anew at every evaluation of the
components: the evaluation of `FloatingShapes` entered after `k` draws makes
100 draws and yields 20 shapes with keys `0..19`, shape `i` having its `x`,
`y`, `z`, `scale` and `type` computed from the draws `k + 5 i, ...,
k + 5 i + 4`, so that its array is the one scene init would yield for the
source read from draw `k` on; and every evaluation of a `FloatingShape` draws
its hue anew, the draw made at that evaluation.  A re-evaluation thus has the
values of scene init only where its draws repeat the initial ones. -/
theorem floatingShapes_generate_redrawn (rng : RandomSource) (k : ℕ) :
    ((FloatingShapes.generate rng k).1.length = 20 ∧
      (FloatingShapes.generate rng k).2 = k + 100) ∧
    (∀ i : Fin 20, (FloatingShapes.generate rng k).1[(i : ℕ)]? =
      some { x := (rng (k + 5 * i) - 1 / 2) * 20,
             y := (rng (k + 5 * i + 1) - 1 / 2) * 20,
             z := (rng (k + 5 * i + 2) - 1 / 2) * 20,
             scale := rng (k + 5 * i + 3) * (1 / 2) + 1 / 5,
             type := ⌊rng (k + 5 * i + 4) * 3⌋,
             key := i }) ∧
    (FloatingShapes.generate rng k).1 =
      (FloatingShapes.generate (fun n => rng (k + n)) 0).1 ∧
    (∀ shape : Shape,
      FloatingShape.render rng k shape = ({ shape := shape, hue := rng k }, k + 1)) := by
  refine ⟨⟨?_, ?_⟩, fun i => ?_, ?_, fun shape => rfl⟩
  · rw [floatingShapes_generate_eq]
    simp
  · rw [floatingShapes_generate_eq]
  · rw [floatingShapes_generate_eq]
    have hi : (i : ℕ) < 20 := i.isLt
    simp [List.getElem?_map, List.getElem?_range', hi, Shape.ofDraws]
  · rw [floatingShapes_generate_eq, floatingShapes_generate_eq]
    simp only [Shape.ofDraws, Nat.zero_add, Nat.add_assoc]

/-! ### The frame callbacks of the scene -/

/-- Two applications of the same callback at two positions of a list of
instances can be exchanged. -/
theorem updateAt_comm {α : Type} (f : α → α) (i j : ℕ) (l : List α) :
    updateAt f i (updateAt f j l) = updateAt f j (updateAt f i l) := by
  induction l generalizing i j with
  | nil => cases i <;> cases j <;> rfl
  | cons a l ih =>
      cases i with
      | zero =>
          cases j with
          | zero => rfl
          | succ j => rfl
      | succ i =>
          cases j with
          | zero => rfl
          | succ j =>
              show a :: updateAt f i (updateAt f j l) = a :: updateAt f j (updateAt f i l)
              rw [ih]

/-- An application at position `i` leaves the instance at any other position. -/
theorem updateAt_getElem?_ne {α : Type} (f : α → α) (i j : ℕ) (hij : j ≠ i) (l : List α) :
    (updateAt f i l)[j]? = l[j]? := by
  induction l generalizing i j with
  | nil => cases i <;> rfl
  | cons a l ih =>
      cases i with
      | zero =>
          cases j with
          | zero => exact absurd rfl hij
          | succ j => simp [updateAt]
      | succ i =>
          cases j with
          | zero => simp [updateAt]
          | succ j =>
              show (a :: updateAt f i l)[j + 1]? = (a :: l)[j + 1]?
              simp only [List.getElem?_cons_succ]
              exact ih i j (fun h => hij (by rw [h]))

/-- Two callbacks that do not call the clock, those of shapes and of the
particle field, can be exchanged. -/
theorem scene_run_comm_readers (M : MathObj) (now delta : ℚ) (s : Scene)
    (c1 c2 : FrameCallback) (h1 : c1 ≠ .logo) (h2 : c2 ≠ .logo) :
    Scene.run M now delta (Scene.run M now delta s c1) c2 =
      Scene.run M now delta (Scene.run M now delta s c2) c1 := by
  cases c1 with
  | logo => exact absurd rfl h1
  | particles =>
      cases c2 with
      | logo => exact absurd rfl h2
      | particles => rfl
      | shape j => rfl
  | shape i =>
      cases c2 with
      | logo => exact absurd rfl h2
      | particles => rfl
      | shape j =>
          simp only [Scene.run]
          rw [updateAt_comm]

/-- Where the call of the logo leaves the clock as it is, any two callbacks
can be exchanged. -/
theorem scene_run_comm_fixed (M : MathObj) (now delta : ℚ) (s : Scene)
    (hfix : (s.clock.getElapsedTime now).2 = s.clock) (c1 c2 : FrameCallback) :
    Scene.run M now delta (Scene.run M now delta s c1) c2 =
      Scene.run M now delta (Scene.run M now delta s c2) c1 := by
  have hd : (s.clock.getDelta now).2 = s.clock := hfix
  cases c1 with
  | logo =>
      cases c2 with
      | logo => rfl
      | particles => simp only [Scene.run, Clock.getElapsedTime, hd]
      | shape j => simp only [Scene.run, Clock.getElapsedTime, hd]
  | particles =>
      cases c2 with
      | logo => simp only [Scene.run, Clock.getElapsedTime, hd]
      | particles => rfl
      | shape j => rfl
  | shape i =>
      cases c2 with
      | logo => simp only [Scene.run, Clock.getElapsedTime, hd]
      | particles => rfl
      | shape j =>
          simp only [Scene.run]
          rw [updateAt_comm]

/-- Where the call of the logo leaves the clock as it is, every callback does. -/
theorem scene_run_clock_fixed (M : MathObj) (now delta : ℚ) (c0 : Clock)
    (hfix : (c0.getElapsedTime now).2 = c0) (z : Scene) (hz : z.clock = c0)
    (c : FrameCallback) :
    (Scene.run M now delta z c).clock = c0 := by
  cases c with
  | logo =>
      show (z.clock.getElapsedTime now).2 = c0
      rw [hz, hfix]
  | particles => exact hz
  | shape i => exact hz

/-- A fold is the same along two lists, one a permutation of the other, when
the steps can be exchanged in every state of an invariant they preserve. -/
theorem foldl_perm_of_invariant {α β : Type} (f : β → α → β) (P : β → Prop)
    (hP : ∀ z a, P z → P (f z a))
    (hcomm : ∀ z a b, P z → f (f z a) b = f (f z b) a)
    {l₁ l₂ : List α} (h : l₁.Perm l₂) :
    ∀ z, P z → l₁.foldl f z = l₂.foldl f z := by
  induction h with
  | nil => exact fun _ _ => rfl
  | cons a _ ih => exact fun z hz => ih (f z a) (hP z a hz)
  | swap a b l =>
      intro z hz
      simp only [List.foldl_cons]
      rw [hcomm z b a hz]
  | trans _ _ ih₁ ih₂ => exact fun z hz => (ih₁ z hz).trans (ih₂ z hz)

/-- C13, refuted as stated: in a scene whose clock was refreshed at wall-clock
time `2000` with elapsed time `2`, with the callbacks run at wall-clock time
`2500`, the order logo, particles leaves the particle field at rotation
`0.125` (the logo has advanced the clock to `2.5`), the order particles, logo
leaves it at `0.1`: the two orders give different states. -/
theorem scene_logo_order_matters :
    (Scene.runAll ⟨fun x => x, fun _ => 1⟩ 2500 (1 / 60)
        ⟨⟨true, 0, 2000, 2, true⟩, ⟨some ⟨⟨0, 0, 0⟩, ⟨0, 0, 0⟩⟩, false⟩, [],
          ⟨Float32Array.new 3, some ⟨⟨0, 0, 0⟩⟩⟩⟩
        [.logo, .particles]).particles.particlesRef = some ⟨⟨0, 1 / 8, 0⟩⟩ ∧
    (Scene.runAll ⟨fun x => x, fun _ => 1⟩ 2500 (1 / 60)
        ⟨⟨true, 0, 2000, 2, true⟩, ⟨some ⟨⟨0, 0, 0⟩, ⟨0, 0, 0⟩⟩, false⟩, [],
          ⟨Float32Array.new 3, some ⟨⟨0, 0, 0⟩⟩⟩⟩
        [.particles, .logo]).particles.particlesRef = some ⟨⟨0, 1 / 10, 0⟩⟩ ∧
    Scene.runAll ⟨fun x => x, fun _ => 1⟩ 2500 (1 / 60)
        ⟨⟨true, 0, 2000, 2, true⟩, ⟨some ⟨⟨0, 0, 0⟩, ⟨0, 0, 0⟩⟩, false⟩, [],
          ⟨Float32Array.new 3, some ⟨⟨0, 0, 0⟩⟩⟩⟩
        [.logo, .particles] ≠
      Scene.runAll ⟨fun x => x, fun _ => 1⟩ 2500 (1 / 60)
        ⟨⟨true, 0, 2000, 2, true⟩, ⟨some ⟨⟨0, 0, 0⟩, ⟨0, 0, 0⟩⟩, false⟩, [],
          ⟨Float32Array.new 3, some ⟨⟨0, 0, 0⟩⟩⟩⟩
        [.particles, .logo] := by
  have h1 : (Scene.runAll ⟨fun x => x, fun _ => 1⟩ 2500 (1 / 60)
        ⟨⟨true, 0, 2000, 2, true⟩, ⟨some ⟨⟨0, 0, 0⟩, ⟨0, 0, 0⟩⟩, false⟩, [],
          ⟨Float32Array.new 3, some ⟨⟨0, 0, 0⟩⟩⟩⟩
        [.logo, .particles]).particles.particlesRef = some ⟨⟨0, 1 / 8, 0⟩⟩ := by
    norm_num [Scene.runAll, Scene.run, Clock.getElapsedTime, Clock.getDelta,
      CodeParticles.useFrame]
  have h2 : (Scene.runAll ⟨fun x => x, fun _ => 1⟩ 2500 (1 / 60)
        ⟨⟨true, 0, 2000, 2, true⟩, ⟨some ⟨⟨0, 0, 0⟩, ⟨0, 0, 0⟩⟩, false⟩, [],
          ⟨Float32Array.new 3, some ⟨⟨0, 0, 0⟩⟩⟩⟩
        [.particles, .logo]).particles.particlesRef = some ⟨⟨0, 1 / 10, 0⟩⟩ := by
    norm_num [Scene.runAll, Scene.run, Clock.getElapsedTime, Clock.getDelta,
      CodeParticles.useFrame]
  refine ⟨h1, h2, fun heq => ?_⟩
  rw [heq, h2] at h1
  norm_num at h1

/-- C13 as amended: within one tick the updates of the floating shapes and of
the particle field commute with one another, and each update writes the
fields of its own object only, except that the update of the logo also
refreshes the clock of the renderer, whose elapsed time the other updates
read.  The result of the logo update for the logo and for the clock does not
depend on the order.  Running the callbacks of the tick in two orders, one a
permutation of the other, from the same scene state gives the same state
whenever the logo callback is not among them or its call leaves the clock as
it is (no time has passed since the last refresh). -/
theorem scene_updates_commute (M : MathObj) (now delta : ℚ) (s : Scene)
    (order1 order2 : List FrameCallback) (h : order1.Perm order2)
    (hsafe : FrameCallback.logo ∉ order1 ∨ (s.clock.getElapsedTime now).2 = s.clock) :
    Scene.runAll M now delta s order1 = Scene.runAll M now delta s order2 ∧
    (∀ i j : ℕ,
      Scene.run M now delta (Scene.run M now delta s (.shape i)) (.shape j) =
        Scene.run M now delta (Scene.run M now delta s (.shape j)) (.shape i)) ∧
    (∀ i : ℕ,
      Scene.run M now delta (Scene.run M now delta s (.shape i)) .particles =
        Scene.run M now delta (Scene.run M now delta s .particles) (.shape i)) ∧
    ((Scene.run M now delta s .logo).shapes = s.shapes ∧
      (Scene.run M now delta s .logo).particles = s.particles ∧
      (Scene.run M now delta s .logo).clock = (s.clock.getElapsedTime now).2) ∧
    (∀ i : ℕ, (Scene.run M now delta s (.shape i)).clock = s.clock ∧
      (Scene.run M now delta s (.shape i)).logo = s.logo ∧
      (Scene.run M now delta s (.shape i)).particles = s.particles ∧
      ∀ j : ℕ, j ≠ i → (Scene.run M now delta s (.shape i)).shapes[j]? = s.shapes[j]?) ∧
    ((Scene.run M now delta s .particles).clock = s.clock ∧
      (Scene.run M now delta s .particles).logo = s.logo ∧
      (Scene.run M now delta s .particles).shapes = s.shapes) ∧
    (∀ c : FrameCallback,
      (Scene.run M now delta (Scene.run M now delta s .logo) c).logo =
        (Scene.run M now delta (Scene.run M now delta s c) .logo).logo ∧
      (Scene.run M now delta (Scene.run M now delta s .logo) c).clock =
        (Scene.run M now delta (Scene.run M now delta s c) .logo).clock) := by
  refine ⟨?_, fun i j => ?_, fun i => ?_, ⟨rfl, rfl, rfl⟩, fun i => ?_, ⟨rfl, rfl, rfl⟩,
    fun c => ?_⟩
  · unfold Scene.runAll
    rcases hsafe with hno | hfix
    · refine List.Perm.foldl_eq' h (fun x hx y hy z => ?_) s
      exact scene_run_comm_readers M now delta z x y
        (fun hxl => hno (hxl ▸ hx)) (fun hyl => hno (hyl ▸ hy))
    · refine foldl_perm_of_invariant (Scene.run M now delta) (fun z => z.clock = s.clock)
        (fun z a hz => scene_run_clock_fixed M now delta s.clock hfix z hz a)
        (fun z a b hz => ?_) h s rfl
      exact scene_run_comm_fixed M now delta z (by rw [hz]; exact hfix) a b
  · exact scene_run_comm_readers M now delta s _ _ (by simp) (by simp)
  · exact scene_run_comm_readers M now delta s _ _ (by simp) (by simp)
  · exact ⟨rfl, rfl, rfl, fun j hj => updateAt_getElem?_ne _ i j hj s.shapes⟩
  · cases c <;> exact ⟨rfl, rfl⟩

/-- Witness of C13 as amended: a scene whose clock was refreshed at wall-clock
time `2000`, the four callbacks run at that same time in two orders. -/
theorem scene_updates_commute_witness :
    Scene.runAll ⟨fun x => x, fun _ => 1⟩ 2000 (1 / 60)
        ⟨⟨true, 0, 2000, 2, true⟩, ⟨some ⟨⟨0, 0, 0⟩, ⟨0, 0, 0⟩⟩, false⟩,
          [⟨3, some ⟨⟨0, 0, 0⟩, ⟨3, 1, -2⟩⟩⟩, ⟨-4, none⟩],
          ⟨Float32Array.new 3, some ⟨⟨0, 0, 0⟩⟩⟩⟩
        [.logo, .shape 0, .shape 1, .particles] =
      Scene.runAll ⟨fun x => x, fun _ => 1⟩ 2000 (1 / 60)
        ⟨⟨true, 0, 2000, 2, true⟩, ⟨some ⟨⟨0, 0, 0⟩, ⟨0, 0, 0⟩⟩, false⟩,
          [⟨3, some ⟨⟨0, 0, 0⟩, ⟨3, 1, -2⟩⟩⟩, ⟨-4, none⟩],
          ⟨Float32Array.new 3, some ⟨⟨0, 0, 0⟩⟩⟩⟩
        [.particles, .shape 1, .logo, .shape 0] :=
  (scene_updates_commute ⟨fun x => x, fun _ => 1⟩ 2000 (1 / 60)
    ⟨⟨true, 0, 2000, 2, true⟩, ⟨some ⟨⟨0, 0, 0⟩, ⟨0, 0, 0⟩⟩, false⟩,
      [⟨3, some ⟨⟨0, 0, 0⟩, ⟨3, 1, -2⟩⟩⟩, ⟨-4, none⟩],
      ⟨Float32Array.new 3, some ⟨⟨0, 0, 0⟩⟩⟩⟩
    [.logo, .shape 0, .shape 1, .particles] [.particles, .shape 1, .logo, .shape 0]
    (by decide)
    (Or.inr (by norm_num [Clock.getElapsedTime, Clock.getDelta]))).1

end App
